import Mathlib

/-
Verification development for the binlog event decoding module
(pymysqlreplication/event.py).  Each Python event class is embedded as a
Lean structure together with an executable decoding function that follows
the byte reads of the corresponding constructor.  The byte cursor
(BinLogPacketWrapper) and the small external collaborators (checksum
policy, detection-based text decoding, hex encoding) are not part of the
given source file; they are modelled from the specification as explicit
parameters or as small definitions marked accordingly.
-/

namespace Binlog

/-- Error taxonomy of the decode layer, following section 7 of the design
document.  The constructor arithmeticUnderflow is listed so that claims
about it can be stated; the decoding functions below, which mirror the
source, are the ones that determine whether it can ever be produced. -/
inductive DecodeError where
  | truncated
  | unicodeDecodeError
  | arithmeticUnderflow
deriving DecidableEq, Repr

/-- Modelled from the spec: the ByteCursor collaborator (section 6).  It is
a sequential reader over one packet of bytes carrying the packet metadata
used by the decoders (event type and timestamp already read by the outer
header reader, log position and the total declared event size).  The pos
field both addresses the next byte and counts the bytes consumed so far
(the read_bytes counter of the wrapper). -/
structure Packet where
  data : List Nat
  pos : Nat
  event_type : Nat
  timestamp : Nat
  log_pos : Nat
  event_size : Nat
deriving DecidableEq, Repr

/-- Modelled from the spec: a read that cannot be satisfied, including one
whose requested length is not a natural number, is the hard TruncatedPacket
failure; a short read is never silently truncated.  The length argument is
an integer because the decoders below compute it by subtraction. -/
def Packet.read (p : Packet) (n : Int) : Except DecodeError (List Nat × Packet) :=
  if 0 ≤ n ∧ p.pos + n.toNat ≤ p.data.length then
    .ok ((p.data.drop p.pos).take n.toNat, { p with pos := p.pos + n.toNat })
  else
    .error .truncated

/-- Modelled from the spec: advance skips bytes without returning them. -/
def Packet.advance (p : Packet) (n : Int) : Except DecodeError Packet :=
  (p.read n).map (fun r => r.2)

/-- Little-endian value of a byte list, as struct.unpack of an unsigned
little-endian field computes it. -/
def leNat (bs : List Nat) : Nat := bs.foldr (fun b acc => b + 256 * acc) 0

/-- Modelled from the spec: read_uint8 of the ByteCursor. -/
def Packet.read_uint8 (p : Packet) : Except DecodeError (Nat × Packet) := do
  let (bs, q) ← p.read 1
  .ok (leNat bs, q)

/-- Modelled from the spec: read_uint16 of the ByteCursor (little-endian). -/
def Packet.read_uint16 (p : Packet) : Except DecodeError (Nat × Packet) := do
  let (bs, q) ← p.read 2
  .ok (leNat bs, q)

/-- Modelled from the spec: read_uint32 of the ByteCursor (little-endian). -/
def Packet.read_uint32 (p : Packet) : Except DecodeError (Nat × Packet) := do
  let (bs, q) ← p.read 4
  .ok (leNat bs, q)

/-- The signed interpretation of one byte, as struct.unpack with format b
computes it. -/
def sint8 (b : Nat) : Int := if b < 128 then (b : Int) else (b : Int) - 256

/-- The keyword configuration accepted by BinLogEvent.__init__ :
table/schema allow and deny lists, the freeze_schema flag and the
fail_on_table_metadata_unavailable flag. -/
structure Config where
  only_tables : Option (List String)
  ignored_tables : Option (List String)
  only_schemas : Option (List String)
  ignored_schemas : Option (List String)
  freeze_schema : Bool
  fail_on_table_metadata_unavailable : Bool
deriving DecidableEq, Repr

/-- A configuration with empty filters, matching the Python defaults. -/
def Config.default : Config :=
  { only_tables := none, ignored_tables := none, only_schemas := none,
    ignored_schemas := none, freeze_schema := false,
    fail_on_table_metadata_unavailable := false }

/-- The envelope state stored by BinLogEvent.__init__ (its __slots__):
the external references table_map and ctl_connection are modelled as
opaque identifiers.  Only the fail_on_table_metadata_unavailable flag of
the configuration is assigned to a slot. -/
structure BinLogEvent where
  event_type : Nat
  timestamp : Nat
  event_size : Nat
  table_map : Nat
  ctl_connection : Nat
  fail_on_table_metadata_unavailable : Bool
  processed : Bool
  complete : Bool
deriving DecidableEq, Repr

/-- BinLogEvent.__init__ : copies event_type and timestamp from the packet,
stores the declared event size, the two external references and the
metadata flag, and sets the processed and complete flags to true. -/
def mkEnvelope (cfg : Config) (p : Packet) (table_map ctl_connection : Nat)
    (event_size : Nat) : BinLogEvent :=
  { event_type := p.event_type, timestamp := p.timestamp,
    event_size := event_size, table_map := table_map,
    ctl_connection := ctl_connection,
    fail_on_table_metadata_unavailable := cfg.fail_on_table_metadata_unavailable,
    processed := true, complete := true }

/-- The query field of a QueryEvent is either decoded text or, when no
decoding applies, the original raw bytes. -/
inductive QueryText where
  | text (s : String)
  | raw (b : List Nat)
deriving DecidableEq, Repr

/-- The injected text decoding collaborators: the strict UTF-8 codec of the
standard library and the detection capability (chardet), both external to
the source file and treated as parameters, as the design document treats
them. -/
structure TextCodec where
  utf8Decode : List Nat → Option String
  detect : List Nat → Option String
  decodeWith : String → List Nat → Option String

/-- QueryEvent._decode_query : empty input is returned unchanged; otherwise
strict UTF-8 is attempted; on failure the detection capability is consulted
and its suggested encoding tried; a missing suggestion (the TypeError
branch) or a failing decode (the UnicodeError branch) falls back to the
original raw bytes.  The function is total: no failure escapes it. -/
def decode_query (tc : TextCodec) (query : List Nat) : QueryText :=
  if query = [] then .raw query
  else
    match tc.utf8Decode query with
    | some s => .text s
    | none =>
      match tc.detect query with
      | none => .raw query
      | some enc =>
        match tc.decodeWith enc query with
        | some s => .text s
        | none => .raw query

/-- GtidEvent : commit flag, 16 raw source id bytes and the transaction
number. -/
structure GtidEvent where
  env : BinLogEvent
  commit_flag : Bool
  sid : List Nat
  gno : Nat
deriving DecidableEq, Repr

/-- RotateEvent : next position and the optional next binlog file name. -/
structure RotateEvent where
  env : BinLogEvent
  position : Nat
  next_binlog : Option String
deriving DecidableEq, Repr

/-- FormatDescriptionEvent : binlog version, trimmed server version text
and the checksum flag. -/
structure FormatDescriptionEvent where
  env : BinLogEvent
  binlog_version : Nat
  server_version : String
  has_checksum : Bool
deriving DecidableEq, Repr

/-- StopEvent : envelope only. -/
structure StopEvent where
  env : BinLogEvent
deriving DecidableEq, Repr

/-- XidEvent : the two-phase-commit transaction id. -/
structure XidEvent where
  env : BinLogEvent
  xid : Nat
deriving DecidableEq, Repr

/-- HeartbeatLogEvent : the current binlog file name. -/
structure HeartbeatLogEvent where
  env : BinLogEvent
  ident : String
deriving DecidableEq, Repr

/-- QueryEvent : post-header fields, raw status variables and schema bytes,
and the decoded query text. -/
structure QueryEvent where
  env : BinLogEvent
  slave_proxy_id : Nat
  execution_time : Nat
  schema_length : Nat
  error_code : Nat
  status_vars_length : Nat
  status_vars : List Nat
  schema : List Nat
  query : QueryText
deriving DecidableEq, Repr

/-- BeginLoadQueryEvent : file id and raw block data. -/
structure BeginLoadQueryEvent where
  env : BinLogEvent
  file_id : Nat
  block_data : List Nat
deriving DecidableEq, Repr

/-- ExecuteLoadQueryEvent : post-header shaped like QueryEvent followed by
file id, start and end positions and the duplicate-handling flag. -/
structure ExecuteLoadQueryEvent where
  env : BinLogEvent
  slave_proxy_id : Nat
  execution_time : Nat
  schema_length : Nat
  error_code : Nat
  status_vars_length : Nat
  file_id : Nat
  start_pos : Nat
  end_pos : Nat
  dup_handling_flags : Nat
deriving DecidableEq, Repr

/-- IntvarEvent : raw kind byte and the value. -/
structure IntvarEvent where
  env : BinLogEvent
  type : Nat
  value : Nat
deriving DecidableEq, Repr

/-- NotImplementedEvent : envelope only; the payload is skipped. -/
structure NotImplementedEvent where
  env : BinLogEvent
deriving DecidableEq, Repr

/-- GtidEvent.__init__ : one byte compared against 1 for the commit flag,
16 raw bytes for the source id, 8 little-endian bytes for gno. -/
def decodeGtid (cfg : Config) (tm ctl : Nat) (p : Packet) (event_size : Nat) :
    Except DecodeError (GtidEvent × Packet) := do
  let env := mkEnvelope cfg p tm ctl event_size
  let (b1, p1) ← p.read 1
  let (sid, p2) ← p1.read 16
  let (b8, p3) ← p2.read 8
  .ok ({ env := env, commit_flag := decide (b1.headD 0 = 1), sid := sid,
         gno := leNat b8 }, p3)

/-- The computed query text length of QueryEvent.__init__ :
event_size - 13 - status_vars_length - schema_length - 1, an integer
subtraction with no underflow guard. -/
def queryTextLen (event_size status_vars_length schema_length : Nat) : Int :=
  (event_size : Int) - 13 - status_vars_length - schema_length - 1

/-- QueryEvent.__init__ : the fixed post-header, then status variables,
schema bytes, one skipped separator byte, and the trailing query text whose
length is computed by queryTextLen and passed to the read unchecked. -/
def decodeQueryEvent (tc : TextCodec) (cfg : Config) (tm ctl : Nat)
    (p : Packet) (event_size : Nat) :
    Except DecodeError (QueryEvent × Packet) := do
  let env := mkEnvelope cfg p tm ctl event_size
  let (spid, p1) ← p.read_uint32
  let (etime, p2) ← p1.read_uint32
  let (slb, p3) ← p2.read 1
  let schemaLength := slb.headD 0
  let (ecode, p4) ← p3.read_uint16
  let (svl, p5) ← p4.read_uint16
  let (statusVars, p6) ← p5.read (svl : Int)
  let (schemaBytes, p7) ← p6.read (schemaLength : Int)
  let p8 ← p7.advance 1
  let (queryBytes, p9) ← p8.read (queryTextLen event_size svl schemaLength)
  .ok ({ env := env, slave_proxy_id := spid, execution_time := etime,
         schema_length := schemaLength, error_code := ecode,
         status_vars_length := svl, status_vars := statusVars,
         schema := schemaBytes, query := decode_query tc queryBytes }, p9)

/-- XidEvent.__init__ : 8 little-endian bytes. -/
def decodeXid (cfg : Config) (tm ctl : Nat) (p : Packet) (event_size : Nat) :
    Except DecodeError (XidEvent × Packet) := do
  let env := mkEnvelope cfg p tm ctl event_size
  let (b8, p1) ← p.read 8
  .ok ({ env := env, xid := leNat b8 }, p1)

/-- IntvarEvent.__init__ : the kind byte and a 4-byte little-endian value. -/
def decodeIntvar (cfg : Config) (tm ctl : Nat) (p : Packet) (event_size : Nat) :
    Except DecodeError (IntvarEvent × Packet) := do
  let env := mkEnvelope cfg p tm ctl event_size
  let (ty, p1) ← p.read_uint8
  let (v, p2) ← p1.read_uint32
  .ok ({ env := env, type := ty, value := v }, p2)

/-- StopEvent : no constructor of its own; only the envelope is built. -/
def decodeStop (cfg : Config) (tm ctl : Nat) (p : Packet) (event_size : Nat) :
    Except DecodeError (StopEvent × Packet) :=
  .ok ({ env := mkEnvelope cfg p tm ctl event_size }, p)

/-- HeartbeatLogEvent.__init__ : event_size raw bytes decoded as text; the
decode is strict, a failure propagates. -/
def decodeHeartbeatLog (tc : TextCodec) (cfg : Config) (tm ctl : Nat)
    (p : Packet) (event_size : Nat) :
    Except DecodeError (HeartbeatLogEvent × Packet) := do
  let env := mkEnvelope cfg p tm ctl event_size
  let (bs, p1) ← p.read (event_size : Int)
  match tc.utf8Decode bs with
  | none => .error .unicodeDecodeError
  | some s => .ok ({ env := env, ident := s }, p1)

/-- BeginLoadQueryEvent.__init__ : file id then the remaining
event_size - 4 bytes of block data. -/
def decodeBeginLoadQuery (cfg : Config) (tm ctl : Nat) (p : Packet)
    (event_size : Nat) :
    Except DecodeError (BeginLoadQueryEvent × Packet) := do
  let env := mkEnvelope cfg p tm ctl event_size
  let (fid, p1) ← p.read_uint32
  let (bd, p2) ← p1.read ((event_size : Int) - 4)
  .ok ({ env := env, file_id := fid, block_data := bd }, p2)

/-- ExecuteLoadQueryEvent.__init__ : the five post-header fields followed by
file id, start and end positions and the duplicate-handling byte; no
further payload bytes are read. -/
def decodeExecuteLoadQuery (cfg : Config) (tm ctl : Nat) (p : Packet)
    (event_size : Nat) :
    Except DecodeError (ExecuteLoadQueryEvent × Packet) := do
  let env := mkEnvelope cfg p tm ctl event_size
  let (spid, p1) ← p.read_uint32
  let (etime, p2) ← p1.read_uint32
  let (slen, p3) ← p2.read_uint8
  let (ecode, p4) ← p3.read_uint16
  let (svl, p5) ← p4.read_uint16
  let (fid, p6) ← p5.read_uint32
  let (sp, p7) ← p6.read_uint32
  let (ep, p8) ← p7.read_uint32
  let (dh, p9) ← p8.read_uint8
  .ok ({ env := env, slave_proxy_id := spid, execution_time := etime,
         schema_length := slen, error_code := ecode,
         status_vars_length := svl, file_id := fid, start_pos := sp,
         end_pos := ep, dup_handling_flags := dh }, p9)

/-- NotImplementedEvent.__init__ : skip exactly event_size bytes. -/
def decodeNotImplemented (cfg : Config) (tm ctl : Nat) (p : Packet)
    (event_size : Nat) :
    Except DecodeError (NotImplementedEvent × Packet) := do
  let env := mkEnvelope cfg p tm ctl event_size
  let p1 ← p.advance (event_size : Int)
  .ok ({ env := env }, p1)

/-- An ASCII digit byte, as the regex digit class matches it on bytes. -/
def isDigitByte (b : Nat) : Bool := decide (48 ≤ b ∧ b ≤ 57)

/-- A match of the RotateEvent file name pattern placed at start i with its
literal dot at position j : at least one byte before the dot, none of them
a newline byte, the dot byte itself, and six digit bytes after it, all
within the trailer. -/
def validMatchAt (bs : List Nat) (i j : Nat) : Bool :=
  decide (i < j) && decide (j + 7 ≤ bs.length) && (bs.getD j 0 == 46) &&
  ((List.range (j - i)).all (fun k => bs.getD (i + k) 0 != 10)) &&
  ((List.range 6).all (fun k => isDigitByte (bs.getD (j + 1 + k) 0)))

/-- Modelled from the spec: the scan of the trailer done in
RotateEvent.__init__ with the regular expression of one-or-more bytes, a
literal dot and exactly six digits.  First means the leftmost start
position at which the pattern matches; at that start the one-or-more
segment is greedy, so the latest viable dot position is taken; the
one-or-more bytes are any bytes other than a newline, as the dot of the
expression matches them. -/
def firstMatch (bs : List Nat) : Option (List Nat) :=
  match (List.range bs.length).find?
      (fun i => ((List.range bs.length).reverse.find? (validMatchAt bs i)).isSome) with
  | none => none
  | some i =>
    match (List.range bs.length).reverse.find? (validMatchAt bs i) with
    | none => none
    | some j => some ((bs.drop i).take (j + 7 - i))

/-- RotateEvent.__init__ : 8 little-endian bytes for the position, the
remaining event_size - 8 bytes as the trailer, and the first pattern match
of the trailer decoded as the next binlog name; no match leaves the name
absent, while a failing text decode of a found match propagates (only the
missing-match error is caught). -/
def decodeRotate (tc : TextCodec) (cfg : Config) (tm ctl : Nat) (p : Packet)
    (event_size : Nat) :
    Except DecodeError (RotateEvent × Packet) := do
  let env := mkEnvelope cfg p tm ctl event_size
  let (b8, p1) ← p.read 8
  let (rest, p2) ← p1.read ((event_size : Int) - 8)
  match firstMatch rest with
  | none => .ok ({ env := env, position := leNat b8, next_binlog := none }, p2)
  | some m =>
    match tc.utf8Decode m with
    | none => .error .unicodeDecodeError
    | some s =>
      .ok ({ env := env, position := leNat b8, next_binlog := some s }, p2)

/-- Trailing NUL bytes removed, as rstrip with a NUL argument removes
them. -/
def rstripNull (bs : List Nat) : List Nat :=
  (bs.reverse.dropWhile (fun b => b == 0)).reverse

/-- FormatDescriptionEvent.__init__ : 2 little-endian bytes for the binlog
version, 50 bytes trimmed of trailing NULs and decoded for the server
version; when the checksum policy accepts the version, skip
(packet event_size - 19) - 2 - 50 - 5 bytes, read one byte and compare its
signed value against 1; the four trailing checksum bytes are never read. -/
def decodeFormatDescription (tc : TextCodec) (policy : String → Bool)
    (cfg : Config) (tm ctl : Nat) (p : Packet) (event_size : Nat) :
    Except DecodeError (FormatDescriptionEvent × Packet) := do
  let env := mkEnvelope cfg p tm ctl event_size
  let (b2, p1) ← p.read 2
  let (svBytes, p2) ← p1.read 50
  match tc.utf8Decode (rstripNull svBytes) with
  | none => .error .unicodeDecodeError
  | some sv =>
    if policy sv then do
      let (_, p3) ← p2.read (((p.event_size : Int) - 19) - 2 - 50 - 5)
      let (ab, p4) ← p3.read 1
      .ok ({ env := env, binlog_version := leNat b2, server_version := sv,
             has_checksum := decide (sint8 (ab.headD 0) = 1) }, p4)
    else
      .ok ({ env := env, binlog_version := leNat b2, server_version := sv,
             has_checksum := false }, p2)

/-- Modelled from the spec: the hex encoding used by the gtid property,
two lowercase hexadecimal characters per byte. -/
def pyHexlify (bs : List Nat) : List Char :=
  bs.flatMap (fun b => [Nat.digitChar (b / 16), Nat.digitChar (b % 16)])

/-- GtidEvent.gtid : the hex characters of the source id sliced at nibble
offsets 8, 12, 16 and 20, joined by hyphens, then a colon and the decimal
transaction number. -/
def GtidEvent.gtid (e : GtidEvent) : String :=
  let nibbles := pyHexlify e.sid
  String.mk (nibbles.take 8) ++ "-" ++
  String.mk ((nibbles.drop 8).take 4) ++ "-" ++
  String.mk ((nibbles.drop 12).take 4) ++ "-" ++
  String.mk ((nibbles.drop 16).take 4) ++ "-" ++
  String.mk (nibbles.drop 20) ++ ":" ++ toString e.gno

/-- The decoded event as a tagged variant over the event kinds of the
module. -/
inductive AnyEvent where
  | gtid (e : GtidEvent)
  | rotate (e : RotateEvent)
  | formatDescription (e : FormatDescriptionEvent)
  | stop (e : StopEvent)
  | xid (e : XidEvent)
  | heartbeatLog (e : HeartbeatLogEvent)
  | query (e : QueryEvent)
  | beginLoadQuery (e : BeginLoadQueryEvent)
  | executeLoadQuery (e : ExecuteLoadQueryEvent)
  | intvar (e : IntvarEvent)
  | notImplemented (e : NotImplementedEvent)
deriving DecidableEq, Repr

/-- The event kinds decoded by the module. -/
inductive EventKind where
  | gtid
  | rotate
  | formatDescription
  | stop
  | xid
  | heartbeatLog
  | query
  | beginLoadQuery
  | executeLoadQuery
  | intvar
  | notImplemented
deriving DecidableEq, Repr

/-- The envelope of a decoded event. -/
def AnyEvent.env : AnyEvent → BinLogEvent
  | .gtid e => e.env
  | .rotate e => e.env
  | .formatDescription e => e.env
  | .stop e => e.env
  | .xid e => e.env
  | .heartbeatLog e => e.env
  | .query e => e.env
  | .beginLoadQuery e => e.env
  | .executeLoadQuery e => e.env
  | .intvar e => e.env
  | .notImplemented e => e.env

/-- Dispatch over the variant decoders of the module. -/
def decodeEvent (tc : TextCodec) (policy : String → Bool) (cfg : Config)
    (tm ctl : Nat) (k : EventKind) (p : Packet) (event_size : Nat) :
    Except DecodeError (AnyEvent × Packet) :=
  match k with
  | .gtid => (decodeGtid cfg tm ctl p event_size).map
      (fun r => (.gtid r.1, r.2))
  | .rotate => (decodeRotate tc cfg tm ctl p event_size).map
      (fun r => (.rotate r.1, r.2))
  | .formatDescription =>
      (decodeFormatDescription tc policy cfg tm ctl p event_size).map
      (fun r => (.formatDescription r.1, r.2))
  | .stop => (decodeStop cfg tm ctl p event_size).map
      (fun r => (.stop r.1, r.2))
  | .xid => (decodeXid cfg tm ctl p event_size).map
      (fun r => (.xid r.1, r.2))
  | .heartbeatLog => (decodeHeartbeatLog tc cfg tm ctl p event_size).map
      (fun r => (.heartbeatLog r.1, r.2))
  | .query => (decodeQueryEvent tc cfg tm ctl p event_size).map
      (fun r => (.query r.1, r.2))
  | .beginLoadQuery => (decodeBeginLoadQuery cfg tm ctl p event_size).map
      (fun r => (.beginLoadQuery r.1, r.2))
  | .executeLoadQuery => (decodeExecuteLoadQuery cfg tm ctl p event_size).map
      (fun r => (.executeLoadQuery r.1, r.2))
  | .intvar => (decodeIntvar cfg tm ctl p event_size).map
      (fun r => (.intvar r.1, r.2))
  | .notImplemented => (decodeNotImplemented cfg tm ctl p event_size).map
      (fun r => (.notImplemented r.1, r.2))

/-- The external value renderers used by the diagnostic dumps: the local
ISO timestamp of the datetime library and the textual form of a raw byte
value, both outside the source file and treated as parameters. -/
structure Renderer where
  showDate : Nat → String
  showBytes : List Nat → String

/-- The textual form of an optional string, as string interpolation of the
value renders it. -/
def pyOptStr : Option String → String
  | none => "None"
  | some s => s

/-- The textual form of a boolean, as string interpolation renders it. -/
def pyBool (b : Bool) : String := if b then "True" else "False"

/-- The textual form of a query field, text or raw bytes. -/
def showQueryText (r : Renderer) : QueryText → String
  | .text s => s
  | .raw b => r.showBytes b

/-- BinLogEvent.dump : the header line, the Date, Log position, Event size
and Read bytes lines, the variant lines of the _dump override, and one
blank line; each list element is one printed line. -/
def dumpBase (r : Renderer) (p : Packet) (name : String) (env : BinLogEvent)
    (rest : List String) : List String :=
  ["=== " ++ name ++ " ===",
   "Date: " ++ r.showDate env.timestamp,
   "Log position: " ++ toString p.log_pos,
   "Event size: " ++ toString env.event_size,
   "Read bytes: " ++ toString p.pos]
  ++ rest ++ [""]

/-- GtidEvent._dump : the commit flag and the formatted gtid. -/
def dumpGtid (r : Renderer) (p : Packet) (e : GtidEvent) : List String :=
  dumpBase r p "GtidEvent" e.env
    ["Commit: " ++ pyBool e.commit_flag, "GTID_NEXT: " ++ e.gtid]

/-- RotateEvent.dump : a full override printing only the header, the
position, the next binlog name and the blank line. -/
def dumpRotate (e : RotateEvent) : List String :=
  ["=== RotateEvent ===",
   "Position: " ++ toString e.position,
   "Next binlog file: " ++ pyOptStr e.next_binlog,
   ""]

/-- FormatDescriptionEvent.dump : a full override printing only the header,
the binlog version, the server version and the blank line. -/
def dumpFormatDescription (e : FormatDescriptionEvent) : List String :=
  ["=== FormatDescriptionEvent ===",
   "Binlog Version: " ++ toString e.binlog_version,
   "Server Version: " ++ e.server_version,
   ""]

/-- StopEvent inherits the base dump with no variant lines. -/
def dumpStop (r : Renderer) (p : Packet) (e : StopEvent) : List String :=
  dumpBase r p "StopEvent" e.env []

/-- XidEvent._dump : the transaction id. -/
def dumpXid (r : Renderer) (p : Packet) (e : XidEvent) : List String :=
  dumpBase r p "XidEvent" e.env ["Transaction ID: " ++ toString e.xid]

/-- HeartbeatLogEvent._dump : the current binlog name. -/
def dumpHeartbeatLog (r : Renderer) (p : Packet) (e : HeartbeatLogEvent) :
    List String :=
  dumpBase r p "HeartbeatLogEvent" e.env ["Current binlog: " ++ e.ident]

/-- QueryEvent._dump : schema, execution time and query. -/
def dumpQuery (r : Renderer) (p : Packet) (e : QueryEvent) : List String :=
  dumpBase r p "QueryEvent" e.env
    ["Schema: " ++ r.showBytes e.schema,
     "Execution time: " ++ toString e.execution_time,
     "Query: " ++ showQueryText r e.query]

/-- BeginLoadQueryEvent._dump : file id and block data. -/
def dumpBeginLoadQuery (r : Renderer) (p : Packet) (e : BeginLoadQueryEvent) :
    List String :=
  dumpBase r p "BeginLoadQueryEvent" e.env
    ["File id: " ++ toString e.file_id,
     "Block data: " ++ r.showBytes e.block_data]

/-- ExecuteLoadQueryEvent._dump : the nine numeric fields. -/
def dumpExecuteLoadQuery (r : Renderer) (p : Packet)
    (e : ExecuteLoadQueryEvent) : List String :=
  dumpBase r p "ExecuteLoadQueryEvent" e.env
    ["Slave proxy id: " ++ toString e.slave_proxy_id,
     "Execution time: " ++ toString e.execution_time,
     "Schema length: " ++ toString e.schema_length,
     "Error code: " ++ toString e.error_code,
     "Status vars length: " ++ toString e.status_vars_length,
     "File id: " ++ toString e.file_id,
     "Start pos: " ++ toString e.start_pos,
     "End pos: " ++ toString e.end_pos,
     "Dup handling flags: " ++ toString e.dup_handling_flags]

/-- IntvarEvent._dump : kind and value. -/
def dumpIntvar (r : Renderer) (p : Packet) (e : IntvarEvent) : List String :=
  dumpBase r p "IntvarEvent" e.env
    ["type: " ++ toString e.type, "Value: " ++ toString e.value]

/-- NotImplementedEvent inherits the base dump with no variant lines. -/
def dumpNotImplemented (r : Renderer) (p : Packet) (e : NotImplementedEvent) :
    List String :=
  dumpBase r p "NotImplementedEvent" e.env []

/-- The class name rendered in the dump header of each variant. -/
def AnyEvent.name : AnyEvent → String
  | .gtid _ => "GtidEvent"
  | .rotate _ => "RotateEvent"
  | .formatDescription _ => "FormatDescriptionEvent"
  | .stop _ => "StopEvent"
  | .xid _ => "XidEvent"
  | .heartbeatLog _ => "HeartbeatLogEvent"
  | .query _ => "QueryEvent"
  | .beginLoadQuery _ => "BeginLoadQueryEvent"
  | .executeLoadQuery _ => "ExecuteLoadQueryEvent"
  | .intvar _ => "IntvarEvent"
  | .notImplemented _ => "NotImplementedEvent"

/-- The dump of a decoded event, dispatched on its variant. -/
def dumpEvent (r : Renderer) (p : Packet) : AnyEvent → List String
  | .gtid e => dumpGtid r p e
  | .rotate e => dumpRotate e
  | .formatDescription e => dumpFormatDescription e
  | .stop e => dumpStop r p e
  | .xid e => dumpXid r p e
  | .heartbeatLog e => dumpHeartbeatLog r p e
  | .query e => dumpQuery r p e
  | .beginLoadQuery e => dumpBeginLoadQuery r p e
  | .executeLoadQuery e => dumpExecuteLoadQuery r p e
  | .intvar e => dumpIntvar r p e
  | .notImplemented e => dumpNotImplemented r p e

/-- The declarative reading of the RotateEvent file name pattern: one or
more non-newline bytes, a literal dot byte, then exactly six digit bytes. -/
def matchesPattern (s : List Nat) : Prop :=
  ∃ pre d6, s = pre ++ 46 :: d6 ∧ pre ≠ [] ∧ (∀ b ∈ pre, b ≠ 10) ∧
    d6.length = 6 ∧ (∀ b ∈ d6, isDigitByte b = true)

/-- Some contiguous substring of the trailer matches the file name
pattern. -/
def hasPatternMatch (bs : List Nat) : Prop :=
  ∃ i s, matchesPattern s ∧ (bs.drop i).take s.length = s

/-- The first five decimal digit characters. -/
def lowDigitChars : List Char := ['0', '1', '2', '3', '4']

/-- The last five decimal digit characters. -/
def highDigitChars : List Char := ['5', '6', '7', '8', '9']

/-- The decimal digit characters. -/
def decimalChars : List Char := lowDigitChars ++ highDigitChars

/-- The six lowercase letters used by hexadecimal notation. -/
def lowerHexLetters : List Char :=
  ['a', 'b', 'c', 'd', 'e', 'f']

/-- The sixteen lowercase hexadecimal characters. -/
def hexAlphabet : List Char := decimalChars ++ lowerHexLetters

/-- The gtid text as the specification words it: the hex characters of the
source id split into hyphen-joined groups of lengths 8, 4, 4, 4 and 12,
then a colon and the decimal transaction number.  Stated separately from
GtidEvent.gtid, which slices an open tail, so the two can be compared. -/
def gtidSpecForm (sid : List Nat) (gno : Nat) : String :=
  let n := pyHexlify sid
  String.mk (n.take 8) ++ "-" ++
  String.mk ((n.drop 8).take 4) ++ "-" ++
  String.mk ((n.drop 12).take 4) ++ "-" ++
  String.mk ((n.drop 16).take 4) ++ "-" ++
  String.mk ((n.drop 20).take 12) ++ ":" ++ toString gno

/-- The envelope with its metadata flag replaced. -/
def BinLogEvent.withFailFlag (env : BinLogEvent) (b : Bool) : BinLogEvent :=
  { env with fail_on_table_metadata_unavailable := b }

/-- A decoded event with its stored metadata flag cleared, used to compare
the decoded fields of two events constructed under different
configurations. -/
def AnyEvent.scrubFail : AnyEvent → AnyEvent
  | .gtid e => .gtid { e with env := e.env.withFailFlag false }
  | .rotate e => .rotate { e with env := e.env.withFailFlag false }
  | .formatDescription e =>
      .formatDescription { e with env := e.env.withFailFlag false }
  | .stop e => .stop { e with env := e.env.withFailFlag false }
  | .xid e => .xid { e with env := e.env.withFailFlag false }
  | .heartbeatLog e => .heartbeatLog { e with env := e.env.withFailFlag false }
  | .query e => .query { e with env := e.env.withFailFlag false }
  | .beginLoadQuery e =>
      .beginLoadQuery { e with env := e.env.withFailFlag false }
  | .executeLoadQuery e =>
      .executeLoadQuery { e with env := e.env.withFailFlag false }
  | .intvar e => .intvar { e with env := e.env.withFailFlag false }
  | .notImplemented e =>
      .notImplemented { e with env := e.env.withFailFlag false }

/-- A concrete strict decoder accepting only 7-bit bytes, used to
instantiate the injected codec in concrete checks. -/
def asciiDecode (bs : List Nat) : Option String :=
  if bs.all (fun b => b < 128) then some (String.mk (bs.map Char.ofNat))
  else none

/-- A codec that decodes nothing, for concrete checks that never reach the
text layer. -/
def tcTrivial : TextCodec :=
  { utf8Decode := fun _ => none, detect := fun _ => none,
    decodeWith := fun _ _ => none }

/-- A codec whose strict decoder is asciiDecode, for concrete checks. -/
def tcAscii : TextCodec :=
  { utf8Decode := asciiDecode, detect := fun _ => none,
    decodeWith := fun _ _ => none }

/-- A codec whose strict decoder accepts exactly the empty byte sequence,
whose decoding is the empty text. -/
def tcEmptyOk : TextCodec :=
  { utf8Decode := fun b => if b = [] then some "" else none,
    detect := fun _ => none, decodeWith := fun _ _ => none }

/-- A checksum policy accepting no version. -/
def policyNone : String → Bool := fun _ => false

/-- A checksum policy accepting exactly the version of the concrete
format-description check. -/
def policy56 : String → Bool := fun s => s == "5.6.24-log"

/-- A packet at position zero with the given data and declared total event
size. -/
def mkPkt (data : List Nat) (esize : Nat) : Packet :=
  { data := data, pos := 0, event_type := 0, timestamp := 0, log_pos := 0,
    event_size := esize }

/-- A malformed QueryEvent packet: status_vars_length 1 and schema length 1
against a declared event size of 14, so the computed query text length is
negative. -/
def pktQ : Packet := mkPkt (List.replicate 8 0 ++ [1, 0, 0, 1, 0, 5, 6, 7]) 14

/-- An ExecuteLoadQueryEvent packet with declared size 27 over a 26-byte
fixed layout. -/
def pktE : Packet := mkPkt (List.replicate 26 0) 27

/-- An XidEvent packet of 8 bytes. -/
def pktX : Packet := mkPkt (List.replicate 8 0) 8

/-- A packet of three bytes for the catch-all decoder. -/
def pktN : Packet := mkPkt [0, 0, 0] 3

/-- An empty packet for envelope-only decoders. -/
def pktS : Packet := mkPkt [] 0

/-- A FormatDescriptionEvent packet: binlog version 4, server version text
of ten characters padded with NULs to 50 bytes, algorithm byte 1, declared
total event size 76 on the packet. -/
def pktF : Packet :=
  mkPkt ([4, 0] ++ [53, 46, 54, 46, 50, 52, 45, 108, 111, 103] ++
    List.replicate 40 0 ++ [1]) 76

/-- A RotateEvent packet: position 2, then a trailer holding a binlog file
name followed by two NUL bytes. -/
def pktR : Packet :=
  mkPkt ([2, 0, 0, 0, 0, 0, 0, 0] ++
    [109, 121, 115, 113, 108, 45, 98, 105, 110, 46, 48, 48, 48, 48, 48, 50] ++
    [0, 0]) 26

/-- A GtidEvent value with the source id of the worked example of the
design document and transaction number 23. -/
def exGtid : GtidEvent :=
  { env := mkEnvelope Config.default pktS 0 0 0, commit_flag := true,
    sid := [62, 17, 250, 71, 113, 202, 17, 225, 158, 51, 200, 10, 169, 66,
            149, 98],
    gno := 23 }

/-- A RotateEvent value for concrete dump checks. -/
def exRotate : RotateEvent :=
  { env := mkEnvelope Config.default pktS 0 0 0, position := 4,
    next_binlog := none }

/-- A fixed renderer for concrete dump checks. -/
def rFixed : Renderer :=
  { showDate := fun _ => "1970-01-01T00:00:00", showBytes := fun _ => "b" }

/-- A configuration carrying a table allow list. -/
def cfgTablesA : Config :=
  { Config.default with only_tables := some (["a"]) }

/-- A configuration carrying a different table allow list. -/
def cfgTablesB : Config :=
  { Config.default with only_tables := some (["b"]) }

/-- A configuration reduced to its only stored component, the metadata
flag; used to show the decoders depend on nothing else. -/
def canonCfg (b : Bool) : Config :=
  { Config.default with fail_on_table_metadata_unavailable := b }

instance {E α : Type} [DecidableEq E] [DecidableEq α] :
    DecidableEq (Except E α) := fun a b =>
  match a, b with
  | .ok x, .ok y =>
    if h : x = y then .isTrue (by rw [h]) else
      .isFalse (fun hc => h (by cases hc; rfl))
  | .error x, .error y =>
    if h : x = y then .isTrue (by rw [h]) else
      .isFalse (fun hc => h (by cases hc; rfl))
  | .ok _, .error _ => .isFalse (fun hc => by cases hc)
  | .error _, .ok _ => .isFalse (fun hc => by cases hc)

theorem bind_ok {α γ E : Type} {e : Except E α} {f : α → Except E γ}
    {r : γ} (h : (e >>= f) = .ok r) : ∃ a, e = .ok a ∧ f a = .ok r := by
  cases e with
  | error err => simp [Bind.bind, Except.bind] at h
  | ok a => exact ⟨a, rfl, by simpa [Bind.bind, Except.bind] using h⟩

theorem bind_ne {α γ E : Type} {e : Except E α} {f : α → Except E γ}
    {err : E} (he : e ≠ .error err) (hf : ∀ a, f a ≠ .error err) :
    (e >>= f) ≠ .error err := by
  cases e with
  | error e2 =>
    simpa [Bind.bind, Except.bind] using fun h => he (by rw [h])
  | ok a => simpa [Bind.bind, Except.bind] using hf a

theorem read_ok {p : Packet} {n : Int} {bs : List Nat} {q : Packet}
    (h : p.read n = .ok (bs, q)) :
    0 ≤ n ∧ p.pos + n.toNat ≤ p.data.length ∧
    bs = (p.data.drop p.pos).take n.toNat ∧
    q.pos = p.pos + n.toNat ∧ q.data = p.data ∧
    q.event_size = p.event_size ∧ q.timestamp = p.timestamp ∧
    q.log_pos = p.log_pos ∧ q.event_type = p.event_type := by
  unfold Packet.read at h
  split at h
  · rename_i hc
    cases h
    exact ⟨hc.1, hc.2, rfl, rfl, rfl, rfl, rfl, rfl, rfl⟩
  · cases h

theorem read_ne {p : Packet} {n : Int} :
    p.read n ≠ .error .arithmeticUnderflow := by
  unfold Packet.read
  split <;> simp

theorem advance_ok {p : Packet} {n : Int} {q : Packet}
    (h : p.advance n = .ok q) :
    0 ≤ n ∧ p.pos + n.toNat ≤ p.data.length ∧
    q.pos = p.pos + n.toNat ∧ q.data = p.data ∧
    q.event_size = p.event_size ∧ q.timestamp = p.timestamp ∧
    q.log_pos = p.log_pos ∧ q.event_type = p.event_type := by
  unfold Packet.advance at h
  cases hr : p.read n with
  | error e => rw [hr] at h; cases h
  | ok r =>
    rw [hr] at h
    obtain ⟨bs, q2⟩ := r
    obtain ⟨h1, h2, _, h4, h5, h6, h7, h8, h9⟩ := read_ok hr
    cases h
    exact ⟨h1, h2, h4, h5, h6, h7, h8, h9⟩

theorem advance_ne {p : Packet} {n : Int} :
    p.advance n ≠ .error .arithmeticUnderflow := by
  unfold Packet.advance
  cases hr : p.read n with
  | error e =>
    have := @read_ne p n
    rw [hr] at this
    simp [Except.map]
    intro hc
    rw [hc] at this
    exact this rfl
  | ok r => simp [Except.map]

theorem read_uint8_ok {p : Packet} {v : Nat} {q : Packet}
    (h : p.read_uint8 = .ok (v, q)) :
    p.pos + 1 ≤ p.data.length ∧ v = leNat ((p.data.drop p.pos).take 1) ∧
    q.pos = p.pos + 1 ∧ q.data = p.data ∧
    q.event_size = p.event_size ∧ q.timestamp = p.timestamp ∧
    q.log_pos = p.log_pos ∧ q.event_type = p.event_type := by
  unfold Packet.read_uint8 at h
  obtain ⟨⟨bs, q2⟩, h1, h2⟩ := bind_ok h
  obtain ⟨_, hl, hb, hp, hd, he, ht, hg, hy⟩ := read_ok h1
  cases h2
  exact ⟨by omega, by rw [hb]; rfl, by omega, hd, he, ht, hg, hy⟩

theorem read_uint16_ok {p : Packet} {v : Nat} {q : Packet}
    (h : p.read_uint16 = .ok (v, q)) :
    p.pos + 2 ≤ p.data.length ∧ v = leNat ((p.data.drop p.pos).take 2) ∧
    q.pos = p.pos + 2 ∧ q.data = p.data ∧
    q.event_size = p.event_size ∧ q.timestamp = p.timestamp ∧
    q.log_pos = p.log_pos ∧ q.event_type = p.event_type := by
  unfold Packet.read_uint16 at h
  obtain ⟨⟨bs, q2⟩, h1, h2⟩ := bind_ok h
  obtain ⟨_, hl, hb, hp, hd, he, ht, hg, hy⟩ := read_ok h1
  cases h2
  exact ⟨by omega, by rw [hb]; rfl, by omega, hd, he, ht, hg, hy⟩

theorem read_uint32_ok {p : Packet} {v : Nat} {q : Packet}
    (h : p.read_uint32 = .ok (v, q)) :
    p.pos + 4 ≤ p.data.length ∧ v = leNat ((p.data.drop p.pos).take 4) ∧
    q.pos = p.pos + 4 ∧ q.data = p.data ∧
    q.event_size = p.event_size ∧ q.timestamp = p.timestamp ∧
    q.log_pos = p.log_pos ∧ q.event_type = p.event_type := by
  unfold Packet.read_uint32 at h
  obtain ⟨⟨bs, q2⟩, h1, h2⟩ := bind_ok h
  obtain ⟨_, hl, hb, hp, hd, he, ht, hg, hy⟩ := read_ok h1
  cases h2
  exact ⟨by omega, by rw [hb]; rfl, by omega, hd, he, ht, hg, hy⟩

theorem decodeGtid_ok {cfg : Config} {tm ctl : Nat} {p : Packet} {es : Nat}
    {e : GtidEvent} {q : Packet}
    (h : decodeGtid cfg tm ctl p es = .ok (e, q)) :
    e.env = mkEnvelope cfg p tm ctl es ∧ q.pos = p.pos + 25 ∧
    q.data = p.data ∧ p.pos + 25 ≤ p.data.length := by
  unfold decodeGtid at h
  obtain ⟨⟨b1, p1⟩, h1, h⟩ := bind_ok h
  obtain ⟨⟨sid, p2⟩, h2, h⟩ := bind_ok h
  obtain ⟨⟨b8, p3⟩, h3, h⟩ := bind_ok h
  obtain ⟨_, hl1, _, hp1, hd1, _, _, _, _⟩ := read_ok h1
  obtain ⟨_, hl2, _, hp2, hd2, _, _, _, _⟩ := read_ok h2
  obtain ⟨_, hl3, _, hp3, hd3, _, _, _, _⟩ := read_ok h3
  cases h
  rw [hd1] at hl2 hd2
  rw [hd2] at hl3 hd3
  exact ⟨rfl, by omega, hd3, by omega⟩

theorem decodeStop_ok {cfg : Config} {tm ctl : Nat} {p : Packet} {es : Nat}
    {e : StopEvent} {q : Packet}
    (h : decodeStop cfg tm ctl p es = .ok (e, q)) :
    e.env = mkEnvelope cfg p tm ctl es ∧ q = p := by
  unfold decodeStop at h
  cases h
  exact ⟨rfl, rfl⟩

theorem decodeXid_ok {cfg : Config} {tm ctl : Nat} {p : Packet} {es : Nat}
    {e : XidEvent} {q : Packet}
    (h : decodeXid cfg tm ctl p es = .ok (e, q)) :
    e.env = mkEnvelope cfg p tm ctl es ∧
    e.xid = leNat ((p.data.drop p.pos).take 8) ∧
    q.pos = p.pos + 8 ∧ q.data = p.data ∧ p.pos + 8 ≤ p.data.length := by
  unfold decodeXid at h
  obtain ⟨⟨b8, p1⟩, h1, h⟩ := bind_ok h
  obtain ⟨_, hl1, hb, hp1, hd1, _, _, _, _⟩ := read_ok h1
  cases h
  exact ⟨rfl, by rw [hb]; rfl, by omega, hd1, by omega⟩

theorem decodeIntvar_ok {cfg : Config} {tm ctl : Nat} {p : Packet} {es : Nat}
    {e : IntvarEvent} {q : Packet}
    (h : decodeIntvar cfg tm ctl p es = .ok (e, q)) :
    e.env = mkEnvelope cfg p tm ctl es ∧
    q.pos = p.pos + 5 ∧ q.data = p.data ∧ p.pos + 5 ≤ p.data.length := by
  unfold decodeIntvar at h
  obtain ⟨⟨ty, p1⟩, h1, h⟩ := bind_ok h
  obtain ⟨⟨v, p2⟩, h2, h⟩ := bind_ok h
  obtain ⟨hl1, _, hp1, hd1, _, _, _, _⟩ := read_uint8_ok h1
  obtain ⟨hl2, _, hp2, hd2, _, _, _, _⟩ := read_uint32_ok h2
  cases h
  rw [hd1] at hl2 hd2
  exact ⟨rfl, by omega, hd2, by omega⟩

theorem decodeNotImplemented_ok {cfg : Config} {tm ctl : Nat} {p : Packet}
    {es : Nat} {e : NotImplementedEvent} {q : Packet}
    (h : decodeNotImplemented cfg tm ctl p es = .ok (e, q)) :
    e.env = mkEnvelope cfg p tm ctl es ∧
    q.pos = p.pos + es ∧ q.data = p.data ∧ p.pos + es ≤ p.data.length := by
  unfold decodeNotImplemented at h
  obtain ⟨p1, h1, h⟩ := bind_ok h
  obtain ⟨_, hl1, hp1, hd1, _, _, _, _⟩ := advance_ok h1
  cases h
  exact ⟨rfl, by omega, hd1, by omega⟩

theorem decodeExecuteLoadQuery_ok {cfg : Config} {tm ctl : Nat} {p : Packet}
    {es : Nat} {e : ExecuteLoadQueryEvent} {q : Packet}
    (h : decodeExecuteLoadQuery cfg tm ctl p es = .ok (e, q)) :
    e.env = mkEnvelope cfg p tm ctl es ∧
    q.pos = p.pos + 26 ∧ q.data = p.data ∧ p.pos + 26 ≤ p.data.length := by
  unfold decodeExecuteLoadQuery at h
  obtain ⟨⟨spid, p1⟩, h1, h⟩ := bind_ok h
  obtain ⟨⟨etime, p2⟩, h2, h⟩ := bind_ok h
  obtain ⟨⟨slen, p3⟩, h3, h⟩ := bind_ok h
  obtain ⟨⟨ecode, p4⟩, h4, h⟩ := bind_ok h
  obtain ⟨⟨svl, p5⟩, h5, h⟩ := bind_ok h
  obtain ⟨⟨fid, p6⟩, h6, h⟩ := bind_ok h
  obtain ⟨⟨sp, p7⟩, h7, h⟩ := bind_ok h
  obtain ⟨⟨ep, p8⟩, h8, h⟩ := bind_ok h
  obtain ⟨⟨dh, p9⟩, h9, h⟩ := bind_ok h
  obtain ⟨hl1, _, hp1, hd1, _, _, _, _⟩ := read_uint32_ok h1
  obtain ⟨hl2, _, hp2, hd2, _, _, _, _⟩ := read_uint32_ok h2
  obtain ⟨hl3, _, hp3, hd3, _, _, _, _⟩ := read_uint8_ok h3
  obtain ⟨hl4, _, hp4, hd4, _, _, _, _⟩ := read_uint16_ok h4
  obtain ⟨hl5, _, hp5, hd5, _, _, _, _⟩ := read_uint16_ok h5
  obtain ⟨hl6, _, hp6, hd6, _, _, _, _⟩ := read_uint32_ok h6
  obtain ⟨hl7, _, hp7, hd7, _, _, _, _⟩ := read_uint32_ok h7
  obtain ⟨hl8, _, hp8, hd8, _, _, _, _⟩ := read_uint32_ok h8
  obtain ⟨hl9, _, hp9, hd9, _, _, _, _⟩ := read_uint8_ok h9
  cases h
  rw [hd1] at hl2 hd2
  rw [hd2] at hl3 hd3
  rw [hd3] at hl4 hd4
  rw [hd4] at hl5 hd5
  rw [hd5] at hl6 hd6
  rw [hd6] at hl7 hd7
  rw [hd7] at hl8 hd8
  rw [hd8] at hl9 hd9
  exact ⟨rfl, by omega, hd9, by omega⟩

theorem decodeBeginLoadQuery_ok {cfg : Config} {tm ctl : Nat} {p : Packet}
    {es : Nat} {e : BeginLoadQueryEvent} {q : Packet}
    (h : decodeBeginLoadQuery cfg tm ctl p es = .ok (e, q)) :
    e.env = mkEnvelope cfg p tm ctl es ∧ 4 ≤ es ∧
    q.pos = p.pos + es ∧ q.data = p.data ∧ p.pos + es ≤ p.data.length := by
  unfold decodeBeginLoadQuery at h
  obtain ⟨⟨fid, p1⟩, h1, h⟩ := bind_ok h
  obtain ⟨⟨bd, p2⟩, h2, h⟩ := bind_ok h
  obtain ⟨hl1, _, hp1, hd1, _, _, _, _⟩ := read_uint32_ok h1
  obtain ⟨hn2, hl2, _, hp2, hd2, _, _, _, _⟩ := read_ok h2
  cases h
  rw [hd1] at hl2 hd2
  exact ⟨rfl, by omega, by omega, hd2, by omega⟩

theorem decodeHeartbeatLog_ok {tc : TextCodec} {cfg : Config} {tm ctl : Nat}
    {p : Packet} {es : Nat} {e : HeartbeatLogEvent} {q : Packet}
    (h : decodeHeartbeatLog tc cfg tm ctl p es = .ok (e, q)) :
    e.env = mkEnvelope cfg p tm ctl es ∧
    tc.utf8Decode ((p.data.drop p.pos).take es) = some e.ident ∧
    q.pos = p.pos + es ∧ q.data = p.data ∧ p.pos + es ≤ p.data.length := by
  unfold decodeHeartbeatLog at h
  obtain ⟨⟨bs, p1⟩, h1, h⟩ := bind_ok h
  obtain ⟨_, hl1, hb, hp1, hd1, _, _, _, _⟩ := read_ok h1
  dsimp only at h
  cases hu : tc.utf8Decode bs with
  | none => rw [hu] at h; cases h
  | some s =>
    rw [hu] at h
    cases h
    refine ⟨rfl, ?_, by omega, hd1, by omega⟩
    rw [← hu, hb]
    rfl

theorem decodeQueryEvent_ok {tc : TextCodec} {cfg : Config} {tm ctl : Nat}
    {p : Packet} {es : Nat} {e : QueryEvent} {q : Packet}
    (h : decodeQueryEvent tc cfg tm ctl p es = .ok (e, q)) :
    e.env = mkEnvelope cfg p tm ctl es ∧ 14 ≤ es ∧
    q.pos = p.pos + es ∧ q.data = p.data ∧ p.pos + es ≤ p.data.length := by
  unfold decodeQueryEvent at h
  obtain ⟨⟨spid, p1⟩, h1, h⟩ := bind_ok h
  obtain ⟨⟨etime, p2⟩, h2, h⟩ := bind_ok h
  obtain ⟨⟨slb, p3⟩, h3, h⟩ := bind_ok h
  obtain ⟨⟨ecode, p4⟩, h4, h⟩ := bind_ok h
  obtain ⟨⟨svl, p5⟩, h5, h⟩ := bind_ok h
  obtain ⟨⟨statusVars, p6⟩, h6, h⟩ := bind_ok h
  obtain ⟨⟨schemaBytes, p7⟩, h7, h⟩ := bind_ok h
  obtain ⟨p8, h8, h⟩ := bind_ok h
  obtain ⟨⟨queryBytes, p9⟩, h9, h⟩ := bind_ok h
  obtain ⟨hl1, _, hp1, hd1, _, _, _, _⟩ := read_uint32_ok h1
  obtain ⟨hl2, _, hp2, hd2, _, _, _, _⟩ := read_uint32_ok h2
  obtain ⟨_, hl3, _, hp3, hd3, _, _, _, _⟩ := read_ok h3
  obtain ⟨hl4, _, hp4, hd4, _, _, _, _⟩ := read_uint16_ok h4
  obtain ⟨hl5, _, hp5, hd5, _, _, _, _⟩ := read_uint16_ok h5
  obtain ⟨hn6, hl6, _, hp6, hd6, _, _, _, _⟩ := read_ok h6
  obtain ⟨hn7, hl7, _, hp7, hd7, _, _, _, _⟩ := read_ok h7
  obtain ⟨hn8, hl8, hp8, hd8, _, _, _, _⟩ := advance_ok h8
  obtain ⟨hn9, hl9, _, hp9, hd9, _, _, _, _⟩ := read_ok h9
  cases h
  rw [hd1] at hl2 hd2
  rw [hd2] at hl3 hd3
  rw [hd3] at hl4 hd4
  rw [hd4] at hl5 hd5
  rw [hd5] at hl6 hd6
  rw [hd6] at hl7 hd7
  rw [hd7] at hl8 hd8
  rw [hd8] at hl9 hd9
  unfold queryTextLen at hn9 hp9 hl9
  exact ⟨rfl, by omega, by omega, hd9, by omega⟩

theorem decodeRotate_ok {tc : TextCodec} {cfg : Config} {tm ctl : Nat}
    {p : Packet} {es : Nat} {e : RotateEvent} {q : Packet}
    (h : decodeRotate tc cfg tm ctl p es = .ok (e, q)) :
    e.env = mkEnvelope cfg p tm ctl es ∧ 8 ≤ es ∧
    e.position = leNat ((p.data.drop p.pos).take 8) ∧
    q.pos = p.pos + es ∧ q.data = p.data ∧ p.pos + es ≤ p.data.length ∧
    (match firstMatch ((p.data.drop (p.pos + 8)).take (es - 8)) with
     | none => e.next_binlog = none
     | some m => ∃ s, tc.utf8Decode m = some s ∧ e.next_binlog = some s) := by
  unfold decodeRotate at h
  obtain ⟨⟨b8, p1⟩, h1, h⟩ := bind_ok h
  obtain ⟨⟨rest, p2⟩, h2, h⟩ := bind_ok h
  obtain ⟨_, hl1, hb1, hp1, hd1, _, _, _, _⟩ := read_ok h1
  obtain ⟨hn2, hl2, hb2, hp2, hd2, _, _, _, _⟩ := read_ok h2
  dsimp only at h
  rw [hd1] at hl2 hd2
  have h8 : 8 ≤ es := by omega
  have hrest : rest = (p.data.drop (p.pos + 8)).take (es - 8) := by
    rw [hb2, hd1, hp1]
    have hx : ((es : Int) - 8).toNat = es - 8 := by omega
    rw [hx]
    have hy : p.pos + (8 : Int).toNat = p.pos + 8 := by omega
    rw [hy]
  cases hm : firstMatch rest with
  | none =>
    rw [hm] at h
    cases h
    refine ⟨rfl, h8, by rw [hb1]; rfl, by omega, hd2, by omega, ?_⟩
    rw [← hrest, hm]
  | some m =>
    rw [hm] at h
    dsimp only at h
    cases hu : tc.utf8Decode m with
    | none => rw [hu] at h; cases h
    | some s =>
      rw [hu] at h
      cases h
      refine ⟨rfl, h8, by rw [hb1]; rfl, by omega, hd2, by omega, ?_⟩
      rw [← hrest, hm]
      exact ⟨s, hu, rfl⟩

theorem take_one_headD (l : List Nat) (k : Nat) :
    ((l.drop k).take 1).headD 0 = l.getD k 0 := by
  rw [List.getD_eq_getElem?_getD]
  cases hdk : l.drop k with
  | nil =>
    have hlen : l.length ≤ k := List.drop_eq_nil_iff.mp hdk
    rw [List.getElem?_eq_none hlen]
    rfl
  | cons a t =>
    have h0 : (l.drop k)[0]? = some a := by rw [hdk]; simp
    rw [List.getElem?_drop] at h0
    simp only [Nat.add_zero] at h0
    rw [h0]
    rfl

theorem sint8_eq_one_iff {b : Nat} (hb : b < 256) : sint8 b = 1 ↔ b = 1 := by
  unfold sint8
  split <;> omega

theorem decodeFormatDescription_ok {tc : TextCodec} {policy : String → Bool}
    {cfg : Config} {tm ctl : Nat} {p : Packet} {es : Nat}
    {e : FormatDescriptionEvent} {q : Packet}
    (h : decodeFormatDescription tc policy cfg tm ctl p es = .ok (e, q)) :
    e.env = mkEnvelope cfg p tm ctl es ∧
    tc.utf8Decode (rstripNull ((p.data.drop (p.pos + 2)).take 50)) =
      some e.server_version ∧
    e.binlog_version = leNat ((p.data.drop p.pos).take 2) ∧
    q.data = p.data ∧
    ((policy e.server_version = true ∧ 76 ≤ p.event_size ∧
      q.pos = p.pos + (p.event_size - 23) ∧
      p.pos + (p.event_size - 23) ≤ p.data.length ∧
      e.has_checksum =
        decide (sint8 (p.data.getD (p.pos + 52 + (p.event_size - 76)) 0) = 1)) ∨
     (policy e.server_version = false ∧ q.pos = p.pos + 52 ∧
      e.has_checksum = false)) := by
  unfold decodeFormatDescription at h
  obtain ⟨⟨b2, p1⟩, h1, h⟩ := bind_ok h
  obtain ⟨⟨svBytes, p2⟩, h2, h⟩ := bind_ok h
  obtain ⟨_, hl1, hb1, hp1, hd1, _, _, _, _⟩ := read_ok h1
  obtain ⟨_, hl2, hb2, hp2, hd2, _, _, _, _⟩ := read_ok h2
  dsimp only at h
  rw [hd1] at hl2 hd2
  have hsv : rstripNull svBytes =
      rstripNull ((p.data.drop (p.pos + 2)).take 50) := by
    rw [hb2, hd1, hp1]
    rfl
  cases hu : tc.utf8Decode (rstripNull svBytes) with
  | none => rw [hu] at h; cases h
  | some sv =>
    rw [hu] at h
    dsimp only at h
    by_cases hpol : policy sv = true
    · rw [if_pos hpol] at h
      obtain ⟨⟨skipBs, p3⟩, h3, h⟩ := bind_ok h
      obtain ⟨⟨ab, p4⟩, h4, h⟩ := bind_ok h
      obtain ⟨hn3, hl3, _, hp3, hd3, _, _, _, _⟩ := read_ok h3
      obtain ⟨_, hl4, hb4, hp4, hd4, _, _, _, _⟩ := read_ok h4
      have hn3v : 0 ≤ (p.event_size : Int) - 19 - 2 - 50 - 5 := hn3
      have hl3v : p2.pos + ((p.event_size : Int) - 19 - 2 - 50 - 5).toNat ≤
          p2.data.length := hl3
      have hp3v0 : p3.pos =
          p2.pos + ((p.event_size : Int) - 19 - 2 - 50 - 5).toNat := hp3
      have hd3v : p3.data = p2.data := hd3
      have hl4v0 : p3.pos + (1 : Int).toNat ≤ p3.data.length := hl4
      have hb4v : ab = (p3.data.drop p3.pos).take ((1 : Int)).toNat := hb4
      have hp4v0 : p4.pos = p3.pos + (1 : Int).toNat := hp4
      have hd4v : p4.data = p3.data := hd4
      rw [hd2] at hl3v hd3v
      rw [hd3v] at hl4v0 hd4v
      have h76 : 76 ≤ p.event_size := by omega
      have hp4v : p4.pos = p.pos + (p.event_size - 23) := by omega
      have hl4v : p.pos + (p.event_size - 23) ≤ p.data.length := by omega
      have hp3v : p3.pos = p.pos + 52 + (p.event_size - 76) := by omega
      have hab : ab.headD 0 =
          p.data.getD (p.pos + 52 + (p.event_size - 76)) 0 := by
        rw [hb4v]
        have hone : ((1 : Int)).toNat = 1 := rfl
        rw [hone, take_one_headD, hd3v, hp3v]
      cases h
      refine ⟨rfl, by rw [← hu, hsv], by rw [hb1]; rfl, hd4v,
        Or.inl ⟨hpol, h76, hp4v, hl4v, ?_⟩⟩
      rw [← hab]
    · rw [if_neg hpol] at h
      have hp2w : p2.pos = p1.pos + (50 : Int).toNat := hp2
      have hp1w : p1.pos = p.pos + (2 : Int).toNat := hp1
      have hp2v : p2.pos = p.pos + 52 := by omega
      cases h
      have hpf : policy sv = false := by
        cases hx : policy sv
        · rfl
        · exact absurd hx hpol
      exact ⟨rfl, by rw [← hu, hsv], by rw [hb1]; rfl, hd2,
        Or.inr ⟨hpf, hp2v, rfl⟩⟩

theorem validMatchAt_iff {bs : List Nat} {i j : Nat} :
    validMatchAt bs i j = true ↔
    (i < j ∧ j + 7 ≤ bs.length ∧ bs.getD j 0 = 46 ∧
     (∀ k, k < j - i → bs.getD (i + k) 0 ≠ 10) ∧
     (∀ k, k < 6 → isDigitByte (bs.getD (j + 1 + k) 0) = true)) := by
  unfold validMatchAt
  simp only [Bool.and_eq_true, decide_eq_true_eq, beq_iff_eq,
    List.all_eq_true, List.mem_range, bne_iff_ne, ne_eq]
  tauto

theorem take_drop_eq_imp {bs s : List Nat} {i : Nat} (hne : s ≠ [])
    (hs : (bs.drop i).take s.length = s) :
    i + s.length ≤ bs.length ∧
    (∀ k, k < s.length → bs.getD (i + k) 0 = s.getD k 0) := by
  have hpos : 0 < s.length := List.length_pos.mpr hne
  have hlen := congrArg List.length hs
  simp only [List.length_take, List.length_drop] at hlen
  have hmin := Nat.min_le_right s.length (bs.length - i)
  rw [hlen] at hmin
  have hle : i + s.length ≤ bs.length := by omega
  refine ⟨hle, ?_⟩
  intro k hk
  have hik : i + k < bs.length := by omega
  have hkd : k < (bs.drop i).length := by
    simp only [List.length_drop]; omega
  have h1 : bs.getD (i + k) 0 = (bs.drop i).getD k 0 := by
    rw [List.getD_eq_getElem?_getD, List.getD_eq_getElem?_getD,
      List.getElem?_drop]
  have h2 : (bs.drop i).getD k 0 = ((bs.drop i).take s.length).getD k 0 := by
    rw [List.getD_eq_getElem?_getD, List.getD_eq_getElem?_getD,
      List.getElem?_take_of_lt hk]
  rw [h1, h2, hs]

theorem slice_decomp {bs : List Nat} {i j : Nat} (hij : i < j)
    (hlen : j + 7 ≤ bs.length) :
    (bs.drop i).take (j + 7 - i) =
    (bs.drop i).take (j - i) ++ bs.getD j 0 :: (bs.drop (j + 1)).take 6 := by
  have h1 : j + 7 - i = (j - i) + 7 := by omega
  rw [h1, List.take_add, List.drop_drop]
  rw [show i + (j - i) = j from by omega]
  have hj : j < bs.length := by omega
  rw [List.drop_eq_getElem_cons hj]
  rw [show (7 : Nat) = 6 + 1 from rfl, List.take_succ_cons]
  rw [List.getD_eq_getElem _ 0 hj]

theorem validMatchAt_matches {bs : List Nat} {i j : Nat}
    (h : validMatchAt bs i j = true) :
    matchesPattern ((bs.drop i).take (j + 7 - i)) ∧ i < j ∧
    j + 7 ≤ bs.length := by
  obtain ⟨hij, hlen, hdot, hnl, hdig⟩ := validMatchAt_iff.mp h
  refine ⟨?_, hij, hlen⟩
  have hprelen : ((bs.drop i).take (j - i)).length = j - i := by
    simp only [List.length_take, List.length_drop]
    omega
  have hd6len : ((bs.drop (j + 1)).take 6).length = 6 := by
    simp only [List.length_take, List.length_drop]
    omega
  have hprene : (bs.drop i).take (j - i) ≠ [] := by
    intro hnil
    rw [hnil] at hprelen
    simp at hprelen
    omega
  have hd6ne : (bs.drop (j + 1)).take 6 ≠ [] := by
    intro hnil
    rw [hnil] at hd6len
    simp at hd6len
  obtain ⟨_, hptPre⟩ := take_drop_eq_imp hprene (by rw [hprelen])
  obtain ⟨_, hptD6⟩ := take_drop_eq_imp hd6ne (by rw [hd6len])
  refine ⟨(bs.drop i).take (j - i), (bs.drop (j + 1)).take 6, ?_, hprene,
    ?_, hd6len, ?_⟩
  · rw [slice_decomp hij hlen, hdot]
  · intro b hb
    rw [List.mem_iff_getElem] at hb
    obtain ⟨k, hk, hbk⟩ := hb
    have hklt : k < j - i := by omega
    have hbv : b = bs.getD (i + k) 0 := by
      rw [← hbk, ← List.getD_eq_getElem _ 0 hk]
      rw [hptPre k (by omega)]
    rw [hbv]
    exact hnl k hklt
  · intro b hb
    rw [List.mem_iff_getElem] at hb
    obtain ⟨k, hk, hbk⟩ := hb
    have hklt : k < 6 := by omega
    have hbv : b = bs.getD (j + 1 + k) 0 := by
      rw [← hbk, ← List.getD_eq_getElem _ 0 hk]
      rw [hptD6 k (by omega)]
    rw [hbv]
    exact hdig k hklt

theorem matches_valid {bs s : List Nat} {i : Nat} (hm : matchesPattern s)
    (hs : (bs.drop i).take s.length = s) :
    ∃ j, validMatchAt bs i j = true := by
  obtain ⟨pre, d6, hseq, hpren, hnl, hd6len, hdig⟩ := hm
  have hslen : s.length = pre.length + 7 := by
    rw [hseq]
    simp only [List.length_append, List.length_cons, hd6len]
  have hne : s ≠ [] := by
    intro h0
    rw [h0] at hslen
    simp at hslen
  obtain ⟨hble, hpt⟩ := take_drop_eq_imp hne hs
  have hprep : 0 < pre.length := List.length_pos.mpr hpren
  refine ⟨i + pre.length, validMatchAt_iff.mpr ⟨by omega, by omega, ?_, ?_, ?_⟩⟩
  · have h46 : s.getD pre.length 0 = 46 := by
      rw [hseq, List.getD_eq_getElem?_getD,
        List.getElem?_append_right (Nat.le_refl pre.length)]
      simp
    rw [hpt pre.length (by omega), h46]
  · intro k hk
    have hk2 : k < pre.length := by omega
    have hsk : s.getD k 0 = pre.getD k 0 := by
      rw [hseq, List.getD_eq_getElem?_getD, List.getElem?_append_left hk2,
        List.getD_eq_getElem?_getD]
    rw [hpt k (by omega), hsk]
    rw [List.getD_eq_getElem _ 0 hk2]
    exact hnl (pre[k]) (List.getElem_mem hk2)
  · intro k hk
    have hik : i + pre.length + 1 + k = i + (pre.length + 1 + k) := by omega
    have hsk : s.getD (pre.length + 1 + k) 0 = d6.getD k 0 := by
      rw [hseq, List.getD_eq_getElem?_getD,
        List.getElem?_append_right (by omega)]
      rw [show pre.length + 1 + k - pre.length = 1 + k from by omega]
      rw [show (1 + k) = k + 1 from by omega]
      simp only [List.getElem?_cons_succ]
      rw [List.getD_eq_getElem?_getD]
    rw [hik, hpt (pre.length + 1 + k) (by omega), hsk]
    have hkd : k < d6.length := by omega
    rw [List.getD_eq_getElem _ 0 hkd]
    exact hdig (d6[k]) (List.getElem_mem hkd)

theorem firstMatch_some_pattern {bs m : List Nat} (h : firstMatch bs = some m) :
    matchesPattern m ∧ ∃ i, (bs.drop i).take m.length = m := by
  unfold firstMatch at h
  cases hfind : (List.range bs.length).find?
      (fun i => ((List.range bs.length).reverse.find?
        (validMatchAt bs i)).isSome) with
  | none => rw [hfind] at h; cases h
  | some i =>
    rw [hfind] at h
    dsimp only at h
    cases hinner : (List.range bs.length).reverse.find? (validMatchAt bs i) with
    | none => rw [hinner] at h; cases h
    | some j =>
      rw [hinner] at h
      cases h
      have hv : validMatchAt bs i j = true := List.find?_some hinner
      obtain ⟨hm, hij, hlen⟩ := validMatchAt_matches hv
      refine ⟨hm, i, ?_⟩
      have hl : ((bs.drop i).take (j + 7 - i)).length = j + 7 - i := by
        simp only [List.length_take, List.length_drop]
        omega
      rw [hl]

theorem firstMatch_none_iff {bs : List Nat} :
    firstMatch bs = none ↔ ¬ hasPatternMatch bs := by
  constructor
  · intro h hmatch
    obtain ⟨i, s, hm, hs⟩ := hmatch
    obtain ⟨j, hv⟩ := matches_valid hm hs
    obtain ⟨_, hij, hlen⟩ := validMatchAt_matches hv
    unfold firstMatch at h
    cases hfind : (List.range bs.length).find?
        (fun i => ((List.range bs.length).reverse.find?
          (validMatchAt bs i)).isSome) with
    | some i2 =>
      rw [hfind] at h
      dsimp only at h
      have hp2 := List.find?_some hfind
      simp only [Option.isSome_iff_exists] at hp2
      obtain ⟨j2, hj2⟩ := hp2
      rw [hj2] at h
      cases h
    | none =>
      have hall := List.find?_eq_none.mp hfind
      have hi_mem : i ∈ List.range bs.length := List.mem_range.mpr (by omega)
      have hnone := hall i hi_mem
      have hj_mem : j ∈ (List.range bs.length).reverse := by
        rw [List.mem_reverse]
        exact List.mem_range.mpr (by omega)
      have hsome : ((List.range bs.length).reverse.find?
          (validMatchAt bs i)).isSome = true :=
        List.find?_isSome.mpr ⟨j, hj_mem, hv⟩
      simp only [hsome, not_true_eq_false] at hnone
  · intro hno
    cases hfm : firstMatch bs with
    | none => rfl
    | some m =>
      obtain ⟨hm, i, hs⟩ := firstMatch_some_pattern hfm
      exact absurd ⟨i, m, hm, hs⟩ hno

theorem read_uint8_ne {p : Packet} :
    p.read_uint8 ≠ .error .arithmeticUnderflow := by
  unfold Packet.read_uint8
  refine bind_ne read_ne ?_
  rintro ⟨bs, q⟩
  simp

theorem read_uint16_ne {p : Packet} :
    p.read_uint16 ≠ .error .arithmeticUnderflow := by
  unfold Packet.read_uint16
  refine bind_ne read_ne ?_
  rintro ⟨bs, q⟩
  simp

theorem read_uint32_ne {p : Packet} :
    p.read_uint32 ≠ .error .arithmeticUnderflow := by
  unfold Packet.read_uint32
  refine bind_ne read_ne ?_
  rintro ⟨bs, q⟩
  simp

theorem decodeQueryEvent_ne_underflow (tc : TextCodec) (cfg : Config)
    (tm ctl : Nat) (p : Packet) (es : Nat) :
    decodeQueryEvent tc cfg tm ctl p es ≠ .error .arithmeticUnderflow := by
  unfold decodeQueryEvent
  refine bind_ne read_uint32_ne ?_
  rintro ⟨spid, p1⟩
  refine bind_ne read_uint32_ne ?_
  rintro ⟨etime, p2⟩
  refine bind_ne read_ne ?_
  rintro ⟨slb, p3⟩
  refine bind_ne read_uint16_ne ?_
  rintro ⟨ecode, p4⟩
  refine bind_ne read_uint16_ne ?_
  rintro ⟨svl, p5⟩
  refine bind_ne read_ne ?_
  rintro ⟨sv, p6⟩
  refine bind_ne read_ne ?_
  rintro ⟨sb, p7⟩
  refine bind_ne advance_ne ?_
  intro p8
  refine bind_ne read_ne ?_
  rintro ⟨qb, p9⟩
  simp

theorem pyHexlify_cons (b : Nat) (t : List Nat) :
    pyHexlify (b :: t) =
    Nat.digitChar (b / 16) :: Nat.digitChar (b % 16) :: pyHexlify t := rfl

theorem pyHexlify_length (bs : List Nat) :
    (pyHexlify bs).length = 2 * bs.length := by
  induction bs with
  | nil => rfl
  | cons b t ih =>
    rw [pyHexlify_cons]
    simp only [List.length_cons, List.length_cons, ih]
    omega

theorem digitChar_mem_hexAlphabet : ∀ n, n < 16 → Nat.digitChar n ∈ hexAlphabet := by
  decide

theorem pyHexlify_mem {bs : List Nat} (hwf : ∀ b ∈ bs, b < 256) :
    ∀ c ∈ pyHexlify bs, c ∈ hexAlphabet := by
  induction bs with
  | nil => simp [pyHexlify]
  | cons b t ih =>
    intro c hc
    rw [pyHexlify_cons] at hc
    rcases List.mem_cons.mp hc with hc1 | hc2
    · rw [hc1]
      refine digitChar_mem_hexAlphabet _ ?_
      have : b < 256 := hwf b (by simp)
      omega
    · rcases List.mem_cons.mp hc2 with hc3 | hc4
      · rw [hc3]
        refine digitChar_mem_hexAlphabet _ ?_
        omega
      · exact ih (fun x hx => hwf x (by simp [hx])) c hc4

theorem map_ok {α γ E : Type} {e : Except E α} {f : α → γ} {r : γ}
    (h : e.map f = .ok r) : ∃ a, e = .ok a ∧ f a = r := by
  cases e with
  | error err => simp [Except.map] at h
  | ok a =>
    refine ⟨a, rfl, ?_⟩
    simpa [Except.map] using h

theorem map_bind {α β γ E : Type} (f : β → γ) (e : Except E α)
    (g : α → Except E β) :
    (e >>= g).map f = e >>= fun a => (g a).map f := by
  cases e <;> rfl

theorem decodeEvent_canon (tc : TextCodec) (policy : String → Bool)
    (cfg : Config) (tm ctl : Nat) (k : EventKind) (p : Packet) (es : Nat) :
    decodeEvent tc policy cfg tm ctl k p es =
    decodeEvent tc policy (canonCfg cfg.fail_on_table_metadata_unavailable)
      tm ctl k p es := by
  cases k <;> rfl

theorem map_map {α β γ E : Type} (f : α → β) (g : β → γ) (e : Except E α) :
    (e.map f).map g = e.map (fun a => g (f a)) := by
  cases e <;> rfl

theorem scrub_flag_invariant (tc : TextCodec) (policy : String → Bool)
    (tm ctl : Nat) (k : EventKind) (p : Packet) (es : Nat) (b b2 : Bool) :
    Except.map (fun r => (AnyEvent.scrubFail r.1, r.2))
      (decodeEvent tc policy (canonCfg b) tm ctl k p es) =
    Except.map (fun r => (AnyEvent.scrubFail r.1, r.2))
      (decodeEvent tc policy (canonCfg b2) tm ctl k p es) := by
  cases k with
  | gtid =>
    simp only [decodeEvent, map_map, decodeGtid, map_bind]
    rfl
  | rotate =>
    simp only [decodeEvent, map_map, decodeRotate, map_bind]
    congr 1
    funext x
    obtain ⟨b8, p1⟩ := x
    dsimp only
    congr 1
    funext y
    obtain ⟨rest, p2⟩ := y
    dsimp only
    cases firstMatch rest with
    | none => rfl
    | some m =>
      dsimp only
      cases tc.utf8Decode m <;> rfl
  | formatDescription =>
    simp only [decodeEvent, map_map, decodeFormatDescription, map_bind]
    congr 1
    funext x
    obtain ⟨bv, p1⟩ := x
    dsimp only
    congr 1
    funext y
    obtain ⟨svb, p2⟩ := y
    dsimp only
    cases tc.utf8Decode (rstripNull svb) with
    | none => rfl
    | some sv =>
      dsimp only
      split <;> first
      | rfl
      | (simp only [map_bind]; rfl)
  | stop =>
    simp only [decodeEvent, map_map, decodeStop, map_bind]
    rfl
  | xid =>
    simp only [decodeEvent, map_map, decodeXid, map_bind]
    rfl
  | heartbeatLog =>
    simp only [decodeEvent, map_map, decodeHeartbeatLog, map_bind]
    congr 1
    funext x
    obtain ⟨bs, p1⟩ := x
    dsimp only
    cases tc.utf8Decode bs <;> rfl
  | query =>
    simp only [decodeEvent, map_map, decodeQueryEvent, map_bind]
    rfl
  | beginLoadQuery =>
    simp only [decodeEvent, map_map, decodeBeginLoadQuery, map_bind]
    rfl
  | executeLoadQuery =>
    simp only [decodeEvent, map_map, decodeExecuteLoadQuery, map_bind]
    rfl
  | intvar =>
    simp only [decodeEvent, map_map, decodeIntvar, map_bind]
    rfl
  | notImplemented =>
    simp only [decodeEvent, map_map, decodeNotImplemented, map_bind]
    rfl

theorem decodeEvent_env {tc : TextCodec} {policy : String → Bool}
    {cfg : Config} {tm ctl : Nat} {k : EventKind} {p : Packet} {es : Nat}
    {e : AnyEvent} {q : Packet}
    (h : decodeEvent tc policy cfg tm ctl k p es = .ok (e, q)) :
    e.env = mkEnvelope cfg p tm ctl es := by
  cases k with
  | gtid =>
    simp only [decodeEvent] at h
    obtain ⟨⟨ev, q2⟩, hdec, hmap⟩ := map_ok h
    injection hmap with h1 h2
    subst h1
    exact (decodeGtid_ok hdec).1
  | rotate =>
    simp only [decodeEvent] at h
    obtain ⟨⟨ev, q2⟩, hdec, hmap⟩ := map_ok h
    injection hmap with h1 h2
    subst h1
    exact (decodeRotate_ok hdec).1
  | formatDescription =>
    simp only [decodeEvent] at h
    obtain ⟨⟨ev, q2⟩, hdec, hmap⟩ := map_ok h
    injection hmap with h1 h2
    subst h1
    exact (decodeFormatDescription_ok hdec).1
  | stop =>
    simp only [decodeEvent] at h
    obtain ⟨⟨ev, q2⟩, hdec, hmap⟩ := map_ok h
    injection hmap with h1 h2
    subst h1
    exact (decodeStop_ok hdec).1
  | xid =>
    simp only [decodeEvent] at h
    obtain ⟨⟨ev, q2⟩, hdec, hmap⟩ := map_ok h
    injection hmap with h1 h2
    subst h1
    exact (decodeXid_ok hdec).1
  | heartbeatLog =>
    simp only [decodeEvent] at h
    obtain ⟨⟨ev, q2⟩, hdec, hmap⟩ := map_ok h
    injection hmap with h1 h2
    subst h1
    exact (decodeHeartbeatLog_ok hdec).1
  | query =>
    simp only [decodeEvent] at h
    obtain ⟨⟨ev, q2⟩, hdec, hmap⟩ := map_ok h
    injection hmap with h1 h2
    subst h1
    exact (decodeQueryEvent_ok hdec).1
  | beginLoadQuery =>
    simp only [decodeEvent] at h
    obtain ⟨⟨ev, q2⟩, hdec, hmap⟩ := map_ok h
    injection hmap with h1 h2
    subst h1
    exact (decodeBeginLoadQuery_ok hdec).1
  | executeLoadQuery =>
    simp only [decodeEvent] at h
    obtain ⟨⟨ev, q2⟩, hdec, hmap⟩ := map_ok h
    injection hmap with h1 h2
    subst h1
    exact (decodeExecuteLoadQuery_ok hdec).1
  | intvar =>
    simp only [decodeEvent] at h
    obtain ⟨⟨ev, q2⟩, hdec, hmap⟩ := map_ok h
    injection hmap with h1 h2
    subst h1
    exact (decodeIntvar_ok hdec).1
  | notImplemented =>
    simp only [decodeEvent] at h
    obtain ⟨⟨ev, q2⟩, hdec, hmap⟩ := map_ok h
    injection hmap with h1 h2
    subst h1
    exact (decodeNotImplemented_ok hdec).1

/-- C10: every event constructed by any variant decoder in this module
finishes construction with its processed flag and its complete flag both
true; no decoder of the module ever assigns false to either, since the only
assignment is the one in the shared envelope constructor. -/
theorem C10_flags_always_true (tc : TextCodec) (policy : String → Bool)
    (cfg : Config) (tm ctl : Nat) (k : EventKind) (p : Packet) (es : Nat)
    (e : AnyEvent) (q : Packet)
    (h : decodeEvent tc policy cfg tm ctl k p es = .ok (e, q)) :
    e.env.processed = true ∧ e.env.complete = true := by
  rw [decodeEvent_env h]
  exact ⟨rfl, rfl⟩

theorem C10_witness :
    decodeEvent tcTrivial policyNone Config.default 0 0 EventKind.stop pktS 0 =
      .ok (AnyEvent.stop { env := mkEnvelope Config.default pktS 0 0 0 },
        pktS) ∧
    (AnyEvent.stop { env := mkEnvelope Config.default pktS 0 0 0 }).env.processed
      = true ∧
    (AnyEvent.stop { env := mkEnvelope Config.default pktS 0 0 0 }).env.complete
      = true := by
  refine ⟨rfl, ?_, ?_⟩
  · exact (C10_flags_always_true tcTrivial policyNone Config.default 0 0
      EventKind.stop pktS 0 _ _ rfl).1
  · exact (C10_flags_always_true tcTrivial policyNone Config.default 0 0
      EventKind.stop pktS 0 _ _ rfl).2

/-- C9: over valid input bytes the fixed-size decoders consume exactly 25
bytes (Gtid), 8 bytes (Xid) and 5 bytes (Intvar), and decoding the same
input twice yields identical results (determinism). -/
theorem C9_fixed_size_deterministic :
    (∀ cfg tm ctl p es e q, decodeGtid cfg tm ctl p es = .ok (e, q) →
      q.pos = p.pos + 25) ∧
    (∀ cfg tm ctl p es e q, decodeXid cfg tm ctl p es = .ok (e, q) →
      q.pos = p.pos + 8) ∧
    (∀ cfg tm ctl p es e q, decodeIntvar cfg tm ctl p es = .ok (e, q) →
      q.pos = p.pos + 5) ∧
    (∀ cfg tm ctl p es e1 q1 e2 q2, decodeGtid cfg tm ctl p es = .ok (e1, q1) →
      decodeGtid cfg tm ctl p es = .ok (e2, q2) → e1 = e2 ∧ q1 = q2) ∧
    (∀ cfg tm ctl p es e1 q1 e2 q2, decodeXid cfg tm ctl p es = .ok (e1, q1) →
      decodeXid cfg tm ctl p es = .ok (e2, q2) → e1 = e2 ∧ q1 = q2) ∧
    (∀ cfg tm ctl p es e1 q1 e2 q2, decodeIntvar cfg tm ctl p es = .ok (e1, q1) →
      decodeIntvar cfg tm ctl p es = .ok (e2, q2) → e1 = e2 ∧ q1 = q2) := by
  refine ⟨?_, ?_, ?_, ?_, ?_, ?_⟩
  · intro cfg tm ctl p es e q h
    exact (decodeGtid_ok h).2.1
  · intro cfg tm ctl p es e q h
    exact (decodeXid_ok h).2.2.1
  · intro cfg tm ctl p es e q h
    exact (decodeIntvar_ok h).2.1
  · intro cfg tm ctl p es e1 q1 e2 q2 h1 h2
    rw [h1] at h2
    injection h2 with h3
    injection h3 with h4 h5
    exact ⟨h4, h5⟩
  · intro cfg tm ctl p es e1 q1 e2 q2 h1 h2
    rw [h1] at h2
    injection h2 with h3
    injection h3 with h4 h5
    exact ⟨h4, h5⟩
  · intro cfg tm ctl p es e1 q1 e2 q2 h1 h2
    rw [h1] at h2
    injection h2 with h3
    injection h3 with h4 h5
    exact ⟨h4, h5⟩

theorem C9_witness :
    decodeXid Config.default 0 0 pktX 8 =
      .ok ({ env := mkEnvelope Config.default pktX 0 0 8, xid := 0 },
        { pktX with pos := 8 }) ∧
    ({ pktX with pos := 8 } : Packet).pos = pktX.pos + 8 := by
  refine ⟨rfl, ?_⟩
  exact C9_fixed_size_deterministic.2.1 Config.default 0 0 pktX 8 _ _ rfl

/-- C8 (amended): the filter configuration and the metadata flag are never
interpreted by the decoders: changing the allow or deny lists or the
freeze_schema flag leaves the decode result completely unchanged (they are
accepted and discarded, not stored), the fail_on_table_metadata_unavailable
flag is stored on the constructed envelope unchanged, and the results of
decoding under any two configurations agree once that single stored flag is
disregarded, for every variant and every input. -/
theorem C8_config_not_interpreted (tc : TextCodec) (policy : String → Bool)
    (cfg cfg2 : Config) (tm ctl : Nat) (k : EventKind) (p : Packet)
    (es : Nat) :
    (cfg.fail_on_table_metadata_unavailable =
        cfg2.fail_on_table_metadata_unavailable →
      decodeEvent tc policy cfg tm ctl k p es =
      decodeEvent tc policy cfg2 tm ctl k p es) ∧
    (∀ e q, decodeEvent tc policy cfg tm ctl k p es = .ok (e, q) →
      e.env.fail_on_table_metadata_unavailable =
      cfg.fail_on_table_metadata_unavailable) ∧
    (Except.map (fun r => (AnyEvent.scrubFail r.1, r.2))
        (decodeEvent tc policy cfg tm ctl k p es) =
     Except.map (fun r => (AnyEvent.scrubFail r.1, r.2))
        (decodeEvent tc policy cfg2 tm ctl k p es)) := by
  refine ⟨?_, ?_, ?_⟩
  · intro hf
    rw [decodeEvent_canon tc policy cfg, decodeEvent_canon tc policy cfg2, hf]
  · intro e q h
    rw [decodeEvent_env h]
    rfl
  · rw [decodeEvent_canon tc policy cfg, decodeEvent_canon tc policy cfg2]
    exact scrub_flag_invariant tc policy tm ctl k p es _ _

theorem C8_counterexample :
    cfgTablesA.only_tables ≠ cfgTablesB.only_tables ∧
    decodeEvent tcTrivial policyNone cfgTablesA 0 0 EventKind.stop pktS 0 =
    decodeEvent tcTrivial policyNone cfgTablesB 0 0 EventKind.stop pktS 0 := by
  exact ⟨by decide, rfl⟩

theorem C8_witness :
    decodeEvent tcTrivial policyNone cfgTablesA 0 0 EventKind.xid pktX 8 =
      decodeEvent tcTrivial policyNone cfgTablesB 0 0 EventKind.xid pktX 8 ∧
    (AnyEvent.xid { env := mkEnvelope cfgTablesA pktX 0 0 8, xid := 0 }).env.fail_on_table_metadata_unavailable
      = cfgTablesA.fail_on_table_metadata_unavailable := by
  refine ⟨?_, ?_⟩
  · exact (C8_config_not_interpreted tcTrivial policyNone cfgTablesA cfgTablesB
      0 0 EventKind.xid pktX 8).1 rfl
  · exact (C8_config_not_interpreted tcTrivial policyNone cfgTablesA cfgTablesB
      0 0 EventKind.xid pktX 8).2.1 _ _ rfl

/-- C1 (amended): the QueryEvent decoder performs no underflow check: it
never raises the distinct ArithmeticUnderflow decode error on any input,
and whenever status_vars_length plus schema_name_length plus 14 exceeds the
declared event size, the computed query text length, which the decoder
passes to the byte read unchecked, is negative. -/
theorem C1_query_no_underflow_check :
    (∀ tc cfg tm ctl p es, decodeQueryEvent tc cfg tm ctl p es ≠
      Except.error DecodeError.arithmeticUnderflow) ∧
    (∀ es svl sl : Nat, es < svl + sl + 14 → queryTextLen es svl sl < 0) := by
  constructor
  · intro tc cfg tm ctl p es
    exact decodeQueryEvent_ne_underflow tc cfg tm ctl p es
  · intro es svl sl h
    unfold queryTextLen
    omega

theorem C1_counterexample :
    1 + 1 + 14 > 14 ∧
    decodeQueryEvent tcTrivial Config.default 0 0 pktQ 14 =
      Except.error DecodeError.truncated ∧
    (Except.error DecodeError.truncated :
        Except DecodeError (QueryEvent × Packet)) ≠
      Except.error DecodeError.arithmeticUnderflow := by
  exact ⟨by decide, rfl, by decide⟩

theorem C1_witness :
    decodeQueryEvent tcTrivial Config.default 0 0 pktQ 14 ≠
      Except.error DecodeError.arithmeticUnderflow ∧
    queryTextLen 14 1 1 < 0 :=
  ⟨C1_query_no_underflow_check.1 tcTrivial Config.default 0 0 pktQ 14,
   C1_query_no_underflow_check.2 14 1 1 (by decide)⟩

/-- C2 (amended): the query text decoding pipeline is total and never
propagates a failure; a nonempty byte sequence that the strict decoder
accepts yields that strict decoding, otherwise the detection fallback is
consulted and its successful decoding returned, and in every remaining case
the original raw bytes are returned unchanged; the empty byte sequence is
returned as raw bytes without any decoding attempt. -/
theorem C2_decode_query_total (tc : TextCodec) (q : List Nat) :
    (q = [] → decode_query tc q = QueryText.raw q) ∧
    (q ≠ [] → ∀ s, tc.utf8Decode q = some s →
      decode_query tc q = QueryText.text s) ∧
    (q ≠ [] → tc.utf8Decode q = none → tc.detect q = none →
      decode_query tc q = QueryText.raw q) ∧
    (q ≠ [] → tc.utf8Decode q = none → ∀ enc, tc.detect q = some enc →
      (∀ s, tc.decodeWith enc q = some s →
        decode_query tc q = QueryText.text s) ∧
      (tc.decodeWith enc q = none → decode_query tc q = QueryText.raw q)) := by
  refine ⟨?_, ?_, ?_, ?_⟩
  · intro h
    rw [h]
    rfl
  · intro hne s hu
    unfold decode_query
    rw [if_neg hne, hu]
  · intro hne hu hd
    unfold decode_query
    rw [if_neg hne, hu, hd]
  · intro hne hu enc hd
    constructor
    · intro s hw
      unfold decode_query
      rw [if_neg hne, hu, hd]
      dsimp only
      rw [hw]
    · intro hw
      unfold decode_query
      rw [if_neg hne, hu, hd]
      dsimp only
      rw [hw]

theorem C2_counterexample :
    tcEmptyOk.utf8Decode [] = some "" ∧
    decode_query tcEmptyOk [] = QueryText.raw [] ∧
    decode_query tcEmptyOk [] ≠ QueryText.text "" :=
  ⟨rfl, rfl, by decide⟩

theorem C2_witness :
    decode_query tcAscii [104, 105] = QueryText.text "hi" :=
  (C2_decode_query_total tcAscii [104, 105]).2.1 (by decide) "hi" rfl

/-- C3 (amended): after a successful decode, the variants with
variable-length payloads (Rotate, HeartbeatLog, Query, BeginLoadQuery and
the catch-all NotImplemented) consume exactly the declared event size;
FormatDescriptionEvent consumes its body minus the 4-byte checksum trailer
when the policy accepts the version and exactly 52 bytes otherwise; the
fixed-layout variants Gtid, Xid, Intvar, Stop and ExecuteLoadQuery consume
exactly 25, 8, 5, 0 and 26 bytes regardless of the declared size, so
ExecuteLoadQueryEvent leaves the stream at the next header only when the
declared size happens to be 26. -/
theorem C3_consumed_bytes (tc : TextCodec) (policy : String → Bool)
    (cfg : Config) (tm ctl : Nat) (k : EventKind) (p : Packet) (es : Nat)
    (e : AnyEvent) (q : Packet)
    (h : decodeEvent tc policy cfg tm ctl k p es = .ok (e, q)) :
    q.pos - p.pos =
      (match e with
       | .gtid _ => 25
       | .rotate _ => es
       | .formatDescription fe =>
           if policy fe.server_version then (p.event_size - 19) - 4 else 52
       | .stop _ => 0
       | .xid _ => 8
       | .heartbeatLog _ => es
       | .query _ => es
       | .beginLoadQuery _ => es
       | .executeLoadQuery _ => 26
       | .intvar _ => 5
       | .notImplemented _ => es) := by
  cases k with
  | gtid =>
    simp only [decodeEvent] at h
    obtain ⟨⟨ev, q2⟩, hdec, hmap⟩ := map_ok h
    injection hmap with h1 h2
    subst h1
    subst h2
    have := (decodeGtid_ok hdec).2.1
    dsimp only
    omega
  | rotate =>
    simp only [decodeEvent] at h
    obtain ⟨⟨ev, q2⟩, hdec, hmap⟩ := map_ok h
    injection hmap with h1 h2
    subst h1
    subst h2
    have := (decodeRotate_ok hdec).2.2.2.1
    dsimp only
    omega
  | formatDescription =>
    simp only [decodeEvent] at h
    obtain ⟨⟨ev, q2⟩, hdec, hmap⟩ := map_ok h
    injection hmap with h1 h2
    subst h1
    subst h2
    obtain ⟨_, _, _, _, hcase⟩ := decodeFormatDescription_ok hdec
    dsimp only
    rcases hcase with ⟨hpol, h76, hpos, _, _⟩ | ⟨hpol, hpos, _⟩
    · rw [hpol, if_pos rfl]
      omega
    · rw [hpol, if_neg (by simp)]
      omega
  | stop =>
    simp only [decodeEvent] at h
    obtain ⟨⟨ev, q2⟩, hdec, hmap⟩ := map_ok h
    injection hmap with h1 h2
    subst h1
    subst h2
    have := (decodeStop_ok hdec).2
    subst this
    dsimp only
    omega
  | xid =>
    simp only [decodeEvent] at h
    obtain ⟨⟨ev, q2⟩, hdec, hmap⟩ := map_ok h
    injection hmap with h1 h2
    subst h1
    subst h2
    have := (decodeXid_ok hdec).2.2.1
    dsimp only
    omega
  | heartbeatLog =>
    simp only [decodeEvent] at h
    obtain ⟨⟨ev, q2⟩, hdec, hmap⟩ := map_ok h
    injection hmap with h1 h2
    subst h1
    subst h2
    have := (decodeHeartbeatLog_ok hdec).2.2.1
    dsimp only
    omega
  | query =>
    simp only [decodeEvent] at h
    obtain ⟨⟨ev, q2⟩, hdec, hmap⟩ := map_ok h
    injection hmap with h1 h2
    subst h1
    subst h2
    have := (decodeQueryEvent_ok hdec).2.2.1
    dsimp only
    omega
  | beginLoadQuery =>
    simp only [decodeEvent] at h
    obtain ⟨⟨ev, q2⟩, hdec, hmap⟩ := map_ok h
    injection hmap with h1 h2
    subst h1
    subst h2
    have := (decodeBeginLoadQuery_ok hdec).2.2.1
    dsimp only
    omega
  | executeLoadQuery =>
    simp only [decodeEvent] at h
    obtain ⟨⟨ev, q2⟩, hdec, hmap⟩ := map_ok h
    injection hmap with h1 h2
    subst h1
    subst h2
    have := (decodeExecuteLoadQuery_ok hdec).2.1
    dsimp only
    omega
  | intvar =>
    simp only [decodeEvent] at h
    obtain ⟨⟨ev, q2⟩, hdec, hmap⟩ := map_ok h
    injection hmap with h1 h2
    subst h1
    subst h2
    have := (decodeIntvar_ok hdec).2.1
    dsimp only
    omega
  | notImplemented =>
    simp only [decodeEvent] at h
    obtain ⟨⟨ev, q2⟩, hdec, hmap⟩ := map_ok h
    injection hmap with h1 h2
    subst h1
    subst h2
    have := (decodeNotImplemented_ok hdec).2.1
    dsimp only
    omega

theorem C3_counterexample :
    Except.map (fun r => r.2.pos)
      (decodeEvent tcTrivial policyNone Config.default 0 0
        EventKind.executeLoadQuery pktE 27) = Except.ok 26 ∧
    (26 : Nat) ≠ 27 :=
  ⟨rfl, by decide⟩

theorem C3_witness :
    decodeEvent tcTrivial policyNone Config.default 0 0
      EventKind.notImplemented pktN 3 =
      .ok (AnyEvent.notImplemented { env := mkEnvelope Config.default pktN 0 0 3 },
        { pktN with pos := 3 }) ∧
    ({ pktN with pos := 3 } : Packet).pos - pktN.pos = 3 := by
  refine ⟨rfl, ?_⟩
  exact C3_consumed_bytes tcTrivial policyNone Config.default 0 0
    EventKind.notImplemented pktN 3 _ _ rfl

/-- C4: for every successful FormatDescriptionEvent decode over a packet of
byte values, has_checksum is true exactly when the checksum policy accepts
the 50-byte NUL-trimmed server version and the signed algorithm byte, read
after skipping (declared total event size - 19) - 2 - 50 - 5 bytes, equals
1; when the policy rejects the version no further bytes are read beyond the
52 post-header bytes; when it accepts, the four trailing checksum bytes are
left unread. -/
theorem C4_format_description_checksum (tc : TextCodec)
    (policy : String → Bool) (cfg : Config) (tm ctl : Nat) (p : Packet)
    (es : Nat) (fe : FormatDescriptionEvent) (q : Packet)
    (hwf : ∀ b ∈ p.data, b < 256)
    (h : decodeFormatDescription tc policy cfg tm ctl p es = .ok (fe, q)) :
    tc.utf8Decode (rstripNull ((p.data.drop (p.pos + 2)).take 50)) =
      some fe.server_version ∧
    (fe.has_checksum = true ↔
      (policy fe.server_version = true ∧
       p.data.getD (p.pos + 52 + (p.event_size - 76)) 0 = 1)) ∧
    (policy fe.server_version = false → q.pos = p.pos + 52) ∧
    (policy fe.server_version = true →
      q.pos + 4 = p.pos + (p.event_size - 19) ∧ 76 ≤ p.event_size) := by
  obtain ⟨_, hsv, hbv, hdata, hcase⟩ := decodeFormatDescription_ok h
  refine ⟨hsv, ?_, ?_, ?_⟩
  · rcases hcase with ⟨hpol, h76, hpos, hbound, hcs⟩ | ⟨hpol, hpos, hcs⟩
    · rw [hcs, hpol]
      have hidx : p.pos + 52 + (p.event_size - 76) < p.data.length := by
        omega
      have hblt : p.data.getD (p.pos + 52 + (p.event_size - 76)) 0 < 256 := by
        rw [List.getD_eq_getElem _ 0 hidx]
        exact hwf _ (List.getElem_mem hidx)
      constructor
      · intro hdec
        refine ⟨rfl, ?_⟩
        have := of_decide_eq_true hdec
        exact (sint8_eq_one_iff hblt).mp this
      · rintro ⟨_, hb1⟩
        exact decide_eq_true ((sint8_eq_one_iff hblt).mpr hb1)
    · rw [hcs, hpol]
      simp
  · intro hpf
    rcases hcase with ⟨hpol, _, _, _, _⟩ | ⟨_, hpos, _⟩
    · rw [hpol] at hpf
      cases hpf
    · exact hpos
  · intro hpt
    rcases hcase with ⟨_, h76, hpos, _, _⟩ | ⟨hpol, _, _⟩
    · constructor
      · omega
      · exact h76
    · rw [hpol] at hpt
      cases hpt

theorem C4_witness :
    decodeFormatDescription tcAscii policy56 Config.default 0 0 pktF 0 =
      .ok ({ env := mkEnvelope Config.default pktF 0 0 0, binlog_version := 4,
             server_version := "5.6.24-log", has_checksum := true },
        { pktF with pos := 53 }) ∧
    (true = true ↔ (policy56 "5.6.24-log" = true ∧
      pktF.data.getD (0 + 52 + (pktF.event_size - 76)) 0 = 1)) ∧
    ({ pktF with pos := 53 } : Packet).pos + 4 = 0 + (pktF.event_size - 19) := by
  have h := C4_format_description_checksum tcAscii policy56 Config.default 0 0
    pktF 0 _ _ (by decide) rfl
  refine ⟨rfl, ?_, ?_⟩
  · exact h.2.1
  · exact (h.2.2.2 rfl).1

/-- C5: for every GtidEvent with a 16-byte source id of byte values, the
derived gtid text is the 32 lowercase hexadecimal characters of the source
id split into hyphen-joined groups of nibble lengths 8, 4, 4, 4 and 12,
followed by a colon and the decimal transaction number; on the worked
example source id the text is the expected one. -/
theorem C5_gtid_format :
    (∀ e : GtidEvent, e.sid.length = 16 → (∀ b ∈ e.sid, b < 256) →
      (e.gtid = gtidSpecForm e.sid e.gno ∧
       (pyHexlify e.sid).length = 32 ∧
       (∀ c ∈ pyHexlify e.sid, c ∈ hexAlphabet))) ∧
    exGtid.gtid = "3e11fa47-71ca-11e1-9e33-c80aa9429562:23" := by
  constructor
  · intro e h16 hwf
    have hlen : (pyHexlify e.sid).length = 32 := by
      rw [pyHexlify_length, h16]
    refine ⟨?_, hlen, pyHexlify_mem hwf⟩
    have hd : ((pyHexlify e.sid).drop 20).length ≤ 12 := by
      simp only [List.length_drop, hlen]
      omega
    unfold GtidEvent.gtid gtidSpecForm
    dsimp only
    rw [List.take_of_length_le hd]
  · rfl

theorem C5_witness :
    exGtid.sid.length = 16 ∧
    exGtid.gtid = gtidSpecForm exGtid.sid exGtid.gno ∧
    exGtid.gtid = "3e11fa47-71ca-11e1-9e33-c80aa9429562:23" :=
  ⟨by decide, (C5_gtid_format.1 exGtid (by decide) (by decide)).1,
   C5_gtid_format.2⟩

/-- C6: for every successful RotateEvent decode the position is the first
8 bytes read little-endian, the remaining event_size - 8 bytes form the
trailer, the next binlog name is present exactly when some trailer
substring matches the file name pattern (one-or-more non-newline bytes, a
literal dot, six digits), and when present it is the decoded text of the
first such match; when the trailer has no matching substring decoding still
succeeds, with the name absent and no error raised. -/
theorem C6_rotate_next_binlog :
    (∀ tc cfg tm ctl p es e q,
      decodeRotate tc cfg tm ctl p es = .ok (e, q) →
      (e.position = leNat ((p.data.drop p.pos).take 8) ∧
       (e.next_binlog = none ↔
         ¬ hasPatternMatch ((p.data.drop (p.pos + 8)).take (es - 8))) ∧
       (∀ m, firstMatch ((p.data.drop (p.pos + 8)).take (es - 8)) = some m →
         matchesPattern m ∧
         (∃ i, ((((p.data.drop (p.pos + 8)).take (es - 8)).drop i).take
           m.length) = m) ∧
         (∃ s, tc.utf8Decode m = some s ∧ e.next_binlog = some s)))) ∧
    (∀ tc cfg tm ctl p es, 8 ≤ es → p.pos + es ≤ p.data.length →
      ¬ hasPatternMatch ((p.data.drop (p.pos + 8)).take (es - 8)) →
      ∃ e q, decodeRotate tc cfg tm ctl p es = .ok (e, q) ∧
        e.next_binlog = none) := by
  constructor
  · intro tc cfg tm ctl p es e q h
    obtain ⟨henv, h8, hposi, hqpos, hqdata, hbound, hmatch⟩ :=
      decodeRotate_ok h
    refine ⟨hposi, ?_, ?_⟩
    · cases hm : firstMatch ((p.data.drop (p.pos + 8)).take (es - 8)) with
      | none =>
        rw [hm] at hmatch
        constructor
        · intro _
          exact firstMatch_none_iff.mp hm
        · intro _
          exact hmatch
      | some m =>
        rw [hm] at hmatch
        obtain ⟨s, hu, hnb⟩ := hmatch
        obtain ⟨hmp, i, hsub⟩ := firstMatch_some_pattern hm
        constructor
        · intro hnone
          rw [hnb] at hnone
          cases hnone
        · intro hno
          exact absurd ⟨i, m, hmp, hsub⟩ hno
    · intro m hm
      rw [hm] at hmatch
      obtain ⟨hmp, i, hsub⟩ := firstMatch_some_pattern hm
      exact ⟨hmp, ⟨i, hsub⟩, hmatch⟩
  · intro tc cfg tm ctl p es h8 hlen hno
    have hm0 : firstMatch ((p.data.drop (p.pos + 8)).take (es - 8)) = none :=
      firstMatch_none_iff.mpr hno
    unfold decodeRotate
    have hr1 : p.read 8 =
        .ok ((p.data.drop p.pos).take 8, { p with pos := p.pos + 8 }) := by
      unfold Packet.read
      rw [if_pos]
      · rfl
      · exact ⟨by omega, by omega⟩
    have htn : ((es : Int) - 8).toNat = es - 8 := by omega
    have hr2 : ({ p with pos := p.pos + 8 } : Packet).read ((es : Int) - 8) =
        .ok ((p.data.drop (p.pos + 8)).take (es - 8),
          { p with pos := p.pos + 8 + (es - 8) }) := by
      unfold Packet.read
      rw [if_pos]
      · dsimp only
        rw [htn]
      · refine ⟨by omega, ?_⟩
        dsimp only
        omega
    rw [hr1]
    simp only [Bind.bind, Except.bind]
    rw [hr2]
    dsimp only
    rw [hm0]
    exact ⟨_, _, rfl, rfl⟩

theorem C6_witness :
    decodeRotate tcAscii Config.default 0 0 pktR 26 =
      .ok ({ env := mkEnvelope Config.default pktR 0 0 26, position := 2,
             next_binlog := some "mysql-bin.000002" },
        { pktR with pos := 26 }) ∧
    (2 : Nat) = leNat ((pktR.data.drop pktR.pos).take 8) := by
  have hdec : decodeRotate tcAscii Config.default 0 0 pktR 26 =
      .ok ({ env := mkEnvelope Config.default pktR 0 0 26, position := 2,
             next_binlog := some "mysql-bin.000002" },
        { pktR with pos := 26 }) := rfl
  refine ⟨hdec, ?_⟩
  exact (C6_rotate_next_binlog.1 tcAscii Config.default 0 0 pktR 26 _ _
    hdec).1

theorem dumpBase_headD (r : Renderer) (p : Packet) (name : String)
    (env : BinLogEvent) (rest : List String) :
    (dumpBase r p name env rest).headD "" = "=== " ++ name ++ " ===" := rfl

theorem dumpBase_getLast (r : Renderer) (p : Packet) (name : String)
    (env : BinLogEvent) (rest : List String) :
    (dumpBase r p name env rest).getLast? = some "" := by
  unfold dumpBase
  exact List.getLast?_concat _

theorem dumpBase_take (r : Renderer) (p : Packet) (name : String)
    (env : BinLogEvent) (rest : List String) :
    (dumpBase r p name env rest).take 5 =
    ["=== " ++ name ++ " ===",
     "Date: " ++ r.showDate env.timestamp,
     "Log position: " ++ toString p.log_pos,
     "Event size: " ++ toString env.event_size,
     "Read bytes: " ++ toString p.pos] := rfl

/-- C7 (amended): the dump of every variant starts with the header line and
ends with one blank line; each variant except RotateEvent and
FormatDescriptionEvent then emits the Date, Log position, Event size and
Read bytes lines before its variant lines; RotateEvent and
FormatDescriptionEvent override the whole dump and emit only the header,
their variant lines and the blank line, omitting the Date, Log position,
Event size and Read bytes lines entirely. -/
theorem C7_dump_structure (r : Renderer) (p : Packet) (e : AnyEvent) :
    (dumpEvent r p e).headD "" = "=== " ++ e.name ++ " ===" ∧
    (dumpEvent r p e).getLast? = some "" ∧
    ((∀ ev, e ≠ AnyEvent.rotate ev) →
     (∀ fe, e ≠ AnyEvent.formatDescription fe) →
      (dumpEvent r p e).take 5 =
        ["=== " ++ e.name ++ " ===",
         "Date: " ++ r.showDate e.env.timestamp,
         "Log position: " ++ toString p.log_pos,
         "Event size: " ++ toString e.env.event_size,
         "Read bytes: " ++ toString p.pos]) ∧
    (∀ ev, e = AnyEvent.rotate ev → dumpEvent r p e =
      ["=== RotateEvent ===",
       "Position: " ++ toString ev.position,
       "Next binlog file: " ++ pyOptStr ev.next_binlog, ""]) ∧
    (∀ fe, e = AnyEvent.formatDescription fe → dumpEvent r p e =
      ["=== FormatDescriptionEvent ===",
       "Binlog Version: " ++ toString fe.binlog_version,
       "Server Version: " ++ fe.server_version, ""]) := by
  cases e with
  | gtid ev =>
    exact ⟨dumpBase_headD r p _ ev.env _, dumpBase_getLast r p _ ev.env _,
      fun _ _ => dumpBase_take r p _ ev.env _,
      fun ev2 hev => AnyEvent.noConfusion hev, fun fe hfe => AnyEvent.noConfusion hfe⟩
  | rotate ev =>
    refine ⟨rfl, rfl, ?_, ?_, fun fe hfe => AnyEvent.noConfusion hfe⟩
    · intro hrot _
      exact absurd rfl (hrot ev)
    · intro ev2 hev
      injection hev with h1
      rw [h1]
      rfl
  | formatDescription fe =>
    refine ⟨rfl, rfl, ?_, fun ev hev => AnyEvent.noConfusion hev, ?_⟩
    · intro _ hfde
      exact absurd rfl (hfde fe)
    · intro fe2 hfe
      injection hfe with h1
      rw [h1]
      rfl
  | stop ev =>
    exact ⟨dumpBase_headD r p _ ev.env _, dumpBase_getLast r p _ ev.env _,
      fun _ _ => dumpBase_take r p _ ev.env _,
      fun ev2 hev => AnyEvent.noConfusion hev, fun fe hfe => AnyEvent.noConfusion hfe⟩
  | xid ev =>
    exact ⟨dumpBase_headD r p _ ev.env _, dumpBase_getLast r p _ ev.env _,
      fun _ _ => dumpBase_take r p _ ev.env _,
      fun ev2 hev => AnyEvent.noConfusion hev, fun fe hfe => AnyEvent.noConfusion hfe⟩
  | heartbeatLog ev =>
    exact ⟨dumpBase_headD r p _ ev.env _, dumpBase_getLast r p _ ev.env _,
      fun _ _ => dumpBase_take r p _ ev.env _,
      fun ev2 hev => AnyEvent.noConfusion hev, fun fe hfe => AnyEvent.noConfusion hfe⟩
  | query ev =>
    exact ⟨dumpBase_headD r p _ ev.env _, dumpBase_getLast r p _ ev.env _,
      fun _ _ => dumpBase_take r p _ ev.env _,
      fun ev2 hev => AnyEvent.noConfusion hev, fun fe hfe => AnyEvent.noConfusion hfe⟩
  | beginLoadQuery ev =>
    exact ⟨dumpBase_headD r p _ ev.env _, dumpBase_getLast r p _ ev.env _,
      fun _ _ => dumpBase_take r p _ ev.env _,
      fun ev2 hev => AnyEvent.noConfusion hev, fun fe hfe => AnyEvent.noConfusion hfe⟩
  | executeLoadQuery ev =>
    exact ⟨dumpBase_headD r p _ ev.env _, dumpBase_getLast r p _ ev.env _,
      fun _ _ => dumpBase_take r p _ ev.env _,
      fun ev2 hev => AnyEvent.noConfusion hev, fun fe hfe => AnyEvent.noConfusion hfe⟩
  | intvar ev =>
    exact ⟨dumpBase_headD r p _ ev.env _, dumpBase_getLast r p _ ev.env _,
      fun _ _ => dumpBase_take r p _ ev.env _,
      fun ev2 hev => AnyEvent.noConfusion hev, fun fe hfe => AnyEvent.noConfusion hfe⟩
  | notImplemented ev =>
    exact ⟨dumpBase_headD r p _ ev.env _, dumpBase_getLast r p _ ev.env _,
      fun _ _ => dumpBase_take r p _ ev.env _,
      fun ev2 hev => AnyEvent.noConfusion hev, fun fe hfe => AnyEvent.noConfusion hfe⟩

theorem C7_counterexample :
    dumpEvent rFixed pktS (AnyEvent.rotate exRotate) =
      ["=== RotateEvent ===", "Position: 4", "Next binlog file: None", ""] ∧
    ((dumpEvent rFixed pktS (AnyEvent.rotate exRotate)).all
      (fun l => !(List.isPrefixOf "Date:".data l.data ||
        List.isPrefixOf "Log position:".data l.data ||
        List.isPrefixOf "Event size:".data l.data ||
        List.isPrefixOf "Read bytes:".data l.data))) = true :=
  ⟨rfl, by decide⟩

theorem C7_witness :
    dumpEvent rFixed pktS
      (AnyEvent.xid { env := mkEnvelope Config.default pktX 0 0 8, xid := 0 })
      =
      ["=== XidEvent ===", "Date: 1970-01-01T00:00:00", "Log position: 0",
       "Event size: 8", "Read bytes: 0", "Transaction ID: 0", ""] ∧
    (dumpEvent rFixed pktS
      (AnyEvent.xid { env := mkEnvelope Config.default pktX 0 0 8, xid := 0 })).take 5
      =
      ["=== XidEvent ===", "Date: 1970-01-01T00:00:00", "Log position: 0",
       "Event size: 8", "Read bytes: 0"] := by
  refine ⟨rfl, ?_⟩
  exact (C7_dump_structure rFixed pktS
    (AnyEvent.xid { env := mkEnvelope Config.default pktX 0 0 8, xid := 0 })).2.2.1
    (fun ev hev => AnyEvent.noConfusion hev) (fun fe hfe => AnyEvent.noConfusion hfe)

end Binlog
